import Mathlib

/-!
Verification of the escpos-viewer-pro core: a shallow embedding of the
ESC/POS byte-stream decoder (`src/escpos.rs`), the printer-state data model
(`src/model.rs`), the barcode symbology encoders (`src/app.rs`) and the
per-connection job-capture read loop (`src/tcp_capture.rs`), together with
theorems settling the specification claims about them.

Conventions of the embedding:
* Rust `u8`/`u16` values are modelled as `Nat`; the source only performs
  arithmetic on them in guarded, non-overflowing positions, except where a
  wrapping/saturating operation appears, which is modelled explicitly
  (`% 2 ^ 32`, `Nat.min _ 255`).
* Rust strings are modelled as lists of Unicode code points (`List Nat`),
  byte buffers as `List Nat`.
* Fallible operations (buffer indexing, slicing) return `Option`; a `none`
  models an out-of-bounds access (a Rust panic).  The decoder is proved to
  never produce `none`.
* `f32` only occurs as `PrinterState.font_scale`; the decoder only ever
  writes small integer values to it (`1.0`, `char_height_mul as f32`), so it
  is modelled exactly by a `Nat`.
-/

namespace EscposViewer

/-! ## Data model (`src/model.rs`) -/

/-- `model.rs`: `enum Align { Left, Center, Right }`. -/
inductive Align
  | Left
  | Center
  | Right
deriving DecidableEq

/-- `model.rs`: `enum BarcodeHriPosition { None, Above, Below, Both }`. -/
inductive BarcodeHriPosition
  | None
  | Above
  | Below
  | Both
deriving DecidableEq

/-- `model.rs`: `enum CodePage`.  Only the four variants handled by
`decode_text` in `escpos.rs` are embedded; the remaining variants listed in
`model.rs` (`Pc858`, `Iso88591`, `Cp866`, `Cp860`, `Cp865`) have no
decoding arm in the decoder and are unreachable from it. -/
inductive CodePage
  | Utf8Lossy
  | Cp437
  | Cp850
  | Windows1252
deriving DecidableEq

/-- `model.rs`: `enum Control`.  Variant payloads that are Rust `String`s /
`Vec<u8>` are lists of code points / bytes.  Constructor names follow the
source; `Align`, `CodePage` and `BarcodeHriPosition` gain a `C` suffix to
avoid clashing with the homonymous types. -/
inductive Control
  | Newline
  | Tab
  | Init
  | Bold (b : Bool)
  | AlignC (a : Align)
  | CodePageC (cp : CodePage)
  | Size (raw : Nat) (width : Nat) (height : Nat)
  | Cut
  | RasterImage (m : Nat) (width_bytes : Nat) (height : Nat) (data : List Nat)
  | Qr (model : Nat) (module_size : Nat) (ecc : Nat) (data : List Nat)
  | Barcode (m : Nat) (data : List Nat)
  | BarcodeHriPositionC (p : BarcodeHriPosition)
  | BarcodeHeight (n : Nat)
  | BarcodeModuleWidth (n : Nat)
  | BarcodeHriFont (n : Nat)
  | AbsolutePosition (x : Nat)
  | RelativePosition (offset : Int)
  | Underline (b : Bool)
  | Reverse (b : Bool)
  | MasterSelect (n : Nat)
  | LineSpacingDefault
  | LineSpacing (n : Nat)
  | BitImage (mode : Nat) (width : Nat) (data : List Nat)
  | EscUnknown (b : Nat)
  | GsUnknown (b : Nat)
deriving DecidableEq

/-- `model.rs`: `enum CommandType { Text(String), Control(Control), Unknown(u8) }`. -/
inductive CommandType
  | Text (s : List Nat)
  | Control (c : Control)
  | Unknown (b : Nat)
deriving DecidableEq

/-- `model.rs`: `struct PrinterState`. -/
structure PrinterState where
  is_bold : Bool
  is_underline : Bool
  is_reverse : Bool
  alignment : Align
  font_scale : Nat
  char_width_mul : Nat
  char_height_mul : Nat
  cursor_x : Option Nat
  line_spacing : Option Nat
  barcode_hri : BarcodeHriPosition
  barcode_height : Nat
  barcode_module_width : Nat
  barcode_hri_font : Nat
deriving DecidableEq

/-- `model.rs`: `impl Default for PrinterState`. -/
def PrinterState.default : PrinterState where
  is_bold := false
  is_underline := false
  is_reverse := false
  alignment := Align.Left
  font_scale := 1
  char_width_mul := 1
  char_height_mul := 1
  cursor_x := Option.none
  line_spacing := Option.none
  barcode_hri := BarcodeHriPosition.None
  barcode_height := 80
  barcode_module_width := 3
  barcode_hri_font := 0

/-- `escpos.rs`: the QR assembly state local to `parse_escpos`
(`qr_model`, `qr_module_size`, `qr_ecc`, `qr_data`). -/
structure QrState where
  model : Nat
  module_size : Nat
  ecc : Nat
  data : List Nat
deriving DecidableEq

/-- `escpos.rs` lines 35-38: the initial QR assembly state
(model 2, module size 4, ecc 48, empty buffer). -/
def QrState.default : QrState where
  model := 2
  module_size := 4
  ecc := 48
  data := []

/-- `escpos.rs`: `pub type ParsedCommand = (PrinterState, CommandType)`. -/
def ParsedCommand := PrinterState × CommandType

instance : DecidableEq ParsedCommand :=
  inferInstanceAs (DecidableEq (PrinterState × CommandType))

/-! ## Text decoding (`decode_text` in `escpos.rs`)

`std::str::from_utf8` (strict UTF-8 validation, used by the `Utf8Lossy`
arm), `String::from_utf8_lossy` (used by the Code128 encoder) and the
single-byte code-page tables of the `oem_cp` / `encoding_rs` crates are
embedded below.  Strings are lists of Unicode code points. -/

/-- Is `b` a UTF-8 continuation byte (`0x80..=0xBF`)? -/
def utf8IsCont (b : Nat) : Bool :=
  decide (0x80 ≤ b ∧ b ≤ 0xBF)

/-- Strict UTF-8 decoding (`std::str::from_utf8`): `none` on any invalid
byte sequence, otherwise the list of decoded code points. -/
def utf8Decode : List Nat → Option (List Nat)
  | [] => some []
  | b :: rest =>
    if b < 0x80 then
      (utf8Decode rest).map (b :: ·)
    else if 0xC2 ≤ b ∧ b ≤ 0xDF then
      match rest with
      | b1 :: rest1 =>
        if utf8IsCont b1 then
          (utf8Decode rest1).map (((b - 0xC0) * 0x40 + (b1 - 0x80)) :: ·)
        else none
      | [] => none
    else if 0xE0 ≤ b ∧ b ≤ 0xEF then
      match rest with
      | b1 :: b2 :: rest2 =>
        let lo1 := if b = 0xE0 then 0xA0 else 0x80
        let hi1 := if b = 0xED then 0x9F else 0xBF
        if (lo1 ≤ b1 ∧ b1 ≤ hi1) ∧ utf8IsCont b2 then
          (utf8Decode rest2).map
            (((b - 0xE0) * 0x1000 + (b1 - 0x80) * 0x40 + (b2 - 0x80)) :: ·)
        else none
      | _ => none
    else if 0xF0 ≤ b ∧ b ≤ 0xF4 then
      match rest with
      | b1 :: b2 :: b3 :: rest3 =>
        let lo1 := if b = 0xF0 then 0x90 else 0x80
        let hi1 := if b = 0xF4 then 0x8F else 0xBF
        if (lo1 ≤ b1 ∧ b1 ≤ hi1) ∧ utf8IsCont b2 ∧ utf8IsCont b3 then
          (utf8Decode rest3).map
            (((b - 0xF0) * 0x40000 + (b1 - 0x80) * 0x1000 +
              (b2 - 0x80) * 0x40 + (b3 - 0x80)) :: ·)
        else none
      | _ => none
    else none

/-- Lossy UTF-8 decoding (`String::from_utf8_lossy`): invalid sequences are
replaced by U+FFFD, one replacement character per maximal valid subpart
(WHATWG behaviour of the Rust standard library). -/
def utf8DecodeLossy : List Nat → List Nat
  | [] => []
  | b :: rest =>
    if b < 0x80 then
      b :: utf8DecodeLossy rest
    else if 0xC2 ≤ b ∧ b ≤ 0xDF then
      match rest with
      | b1 :: rest1 =>
        if utf8IsCont b1 then
          ((b - 0xC0) * 0x40 + (b1 - 0x80)) :: utf8DecodeLossy rest1
        else 0xFFFD :: utf8DecodeLossy (b1 :: rest1)
      | [] => [0xFFFD]
    else if 0xE0 ≤ b ∧ b ≤ 0xEF then
      let lo1 := if b = 0xE0 then 0xA0 else 0x80
      let hi1 := if b = 0xED then 0x9F else 0xBF
      match rest with
      | b1 :: rest1 =>
        if lo1 ≤ b1 ∧ b1 ≤ hi1 then
          match rest1 with
          | b2 :: rest2 =>
            if utf8IsCont b2 then
              ((b - 0xE0) * 0x1000 + (b1 - 0x80) * 0x40 + (b2 - 0x80)) ::
                utf8DecodeLossy rest2
            else 0xFFFD :: utf8DecodeLossy (b2 :: rest2)
          | [] => [0xFFFD]
        else 0xFFFD :: utf8DecodeLossy (b1 :: rest1)
      | [] => [0xFFFD]
    else if 0xF0 ≤ b ∧ b ≤ 0xF4 then
      let lo1 := if b = 0xF0 then 0x90 else 0x80
      let hi1 := if b = 0xF4 then 0x8F else 0xBF
      match rest with
      | b1 :: rest1 =>
        if lo1 ≤ b1 ∧ b1 ≤ hi1 then
          match rest1 with
          | b2 :: rest2 =>
            if utf8IsCont b2 then
              match rest2 with
              | b3 :: rest3 =>
                if utf8IsCont b3 then
                  ((b - 0xF0) * 0x40000 + (b1 - 0x80) * 0x1000 +
                    (b2 - 0x80) * 0x40 + (b3 - 0x80)) :: utf8DecodeLossy rest3
                else 0xFFFD :: utf8DecodeLossy (b3 :: rest3)
              | [] => [0xFFFD]
            else 0xFFFD :: utf8DecodeLossy (b2 :: rest2)
          | [] => [0xFFFD]
        else 0xFFFD :: utf8DecodeLossy (b1 :: rest1)
      | [] => [0xFFFD]
    else 0xFFFD :: utf8DecodeLossy rest
termination_by bs => bs.length
decreasing_by all_goals simp [List.length_cons] <;> omega

/-- UTF-8 encoding of one code point (`str::as_bytes` applied to the result
of a lossy decode). -/
def utf8EncodeChar (c : Nat) : List Nat :=
  if c < 0x80 then [c]
  else if c < 0x800 then [0xC0 + c / 0x40, 0x80 + c % 0x40]
  else if c < 0x10000 then
    [0xE0 + c / 0x1000, 0x80 + c / 0x40 % 0x40, 0x80 + c % 0x40]
  else
    [0xF0 + c / 0x40000, 0x80 + c / 0x1000 % 0x40,
     0x80 + c / 0x40 % 0x40, 0x80 + c % 0x40]

/-- UTF-8 encoding of a string of code points. -/
def utf8Encode (s : List Nat) : List Nat :=
  s.flatMap utf8EncodeChar

/-- WHATWG Windows-1252 decode table for the bytes `0x80..=0x9F`
(as used by `encoding_rs::WINDOWS_1252`); all other bytes map to the code
point with the same value. -/
def windows1252High : List Nat :=
  [0x20AC, 0x81, 0x201A, 0x0192, 0x201E, 0x2026, 0x2020, 0x2021,
   0x02C6, 0x2030, 0x0160, 0x2039, 0x0152, 0x8D, 0x017D, 0x8F,
   0x90, 0x2018, 0x2019, 0x201C, 0x201D, 0x2022, 0x2013, 0x2014,
   0x02DC, 0x2122, 0x0161, 0x203A, 0x0153, 0x9D, 0x017E, 0x0178]

/-- `encoding_rs::WINDOWS_1252.decode` on one byte. -/
def windows1252Char (b : Nat) : Nat :=
  if 0x80 ≤ b ∧ b ≤ 0x9F then (windows1252High.getD (b - 0x80) 0xFFFD) else b

/-- `encoding_rs::WINDOWS_1252.decode` (total: every byte decodes). -/
def windows1252Decode (bytes : List Nat) : List Nat :=
  bytes.map windows1252Char

/-- `oem_cp` CP437 decode table for bytes `0x80..=0xFF`; bytes below `0x80`
decode as ASCII. -/
def cp437High : List Nat :=
  [0x00C7, 0x00FC, 0x00E9, 0x00E2, 0x00E4, 0x00E0, 0x00E5, 0x00E7,
   0x00EA, 0x00EB, 0x00E8, 0x00EF, 0x00EE, 0x00EC, 0x00C4, 0x00C5,
   0x00C9, 0x00E6, 0x00C6, 0x00F4, 0x00F6, 0x00F2, 0x00FB, 0x00F9,
   0x00FF, 0x00D6, 0x00DC, 0x00A2, 0x00A3, 0x00A5, 0x20A7, 0x0192,
   0x00E1, 0x00ED, 0x00F3, 0x00FA, 0x00F1, 0x00D1, 0x00AA, 0x00BA,
   0x00BF, 0x2310, 0x00AC, 0x00BD, 0x00BC, 0x00A1, 0x00AB, 0x00BB,
   0x2591, 0x2592, 0x2593, 0x2502, 0x2524, 0x2561, 0x2562, 0x2556,
   0x2555, 0x2563, 0x2551, 0x2557, 0x255D, 0x255C, 0x255B, 0x2510,
   0x2514, 0x2534, 0x252C, 0x251C, 0x2500, 0x253C, 0x255E, 0x255F,
   0x255A, 0x2554, 0x2569, 0x2566, 0x2560, 0x2550, 0x256C, 0x2567,
   0x2568, 0x2564, 0x2565, 0x2559, 0x2558, 0x2552, 0x2553, 0x256B,
   0x256A, 0x2518, 0x250C, 0x2588, 0x2584, 0x258C, 0x2590, 0x2580,
   0x03B1, 0x00DF, 0x0393, 0x03C0, 0x03A3, 0x03C3, 0x00B5, 0x03C4,
   0x03A6, 0x0398, 0x03A9, 0x03B4, 0x221E, 0x03C6, 0x03B5, 0x2229,
   0x2261, 0x00B1, 0x2265, 0x2264, 0x2320, 0x2321, 0x00F7, 0x2248,
   0x00B0, 0x2219, 0x00B7, 0x221A, 0x207F, 0x00B2, 0x25A0, 0x00A0]

/-- CP437 decode of one byte (`String::from_cp::<Cp437>`). -/
def cp437Char (b : Nat) : Nat :=
  if b < 0x80 then b else cp437High.getD (b - 0x80) 0xFFFD

/-- `oem_cp` CP850 decode table for bytes `0x80..=0xFF`; bytes below `0x80`
decode as ASCII. -/
def cp850High : List Nat :=
  [0x00C7, 0x00FC, 0x00E9, 0x00E2, 0x00E4, 0x00E0, 0x00E5, 0x00E7,
   0x00EA, 0x00EB, 0x00E8, 0x00EF, 0x00EE, 0x00EC, 0x00C4, 0x00C5,
   0x00C9, 0x00E6, 0x00C6, 0x00F4, 0x00F6, 0x00F2, 0x00FB, 0x00F9,
   0x00FF, 0x00D6, 0x00DC, 0x00F8, 0x00A3, 0x00D8, 0x00D7, 0x0192,
   0x00E1, 0x00ED, 0x00F3, 0x00FA, 0x00F1, 0x00D1, 0x00AA, 0x00BA,
   0x00BF, 0x00AE, 0x00AC, 0x00BD, 0x00BC, 0x00A1, 0x00AB, 0x00BB,
   0x2591, 0x2592, 0x2593, 0x2502, 0x2524, 0x00C1, 0x00C2, 0x00C0,
   0x00A9, 0x2563, 0x2551, 0x2557, 0x255D, 0x00A2, 0x00A5, 0x2510,
   0x2514, 0x2534, 0x252C, 0x251C, 0x2500, 0x253C, 0x00E3, 0x00C3,
   0x255A, 0x2554, 0x2569, 0x2566, 0x2560, 0x2550, 0x256C, 0x00A4,
   0x00F0, 0x00D0, 0x00CA, 0x00CB, 0x00C8, 0x0131, 0x00CD, 0x00CE,
   0x00CF, 0x2518, 0x250C, 0x2588, 0x2584, 0x00A6, 0x00CC, 0x2580,
   0x00D3, 0x00DF, 0x00D4, 0x00D2, 0x00F5, 0x00D5, 0x00B5, 0x00FE,
   0x00DE, 0x00DA, 0x00DB, 0x00D9, 0x00FD, 0x00DD, 0x00AF, 0x00B4,
   0x00AD, 0x00B1, 0x2017, 0x00BE, 0x00B6, 0x00A7, 0x00F7, 0x00B8,
   0x00B0, 0x00A8, 0x00B7, 0x00B9, 0x00B3, 0x00B2, 0x25A0, 0x00A0]

/-- CP850 decode of one byte (`String::from_cp::<Cp850>`). -/
def cp850Char (b : Nat) : Nat :=
  if b < 0x80 then b else cp850High.getD (b - 0x80) 0xFFFD

/-- `escpos.rs`: `fn decode_text(bytes, codepage) -> String`.  The
`Utf8Lossy` arm tries strict UTF-8 first and falls back to Windows-1252 on
failure. -/
def decode_text (bytes : List Nat) (codepage : CodePage) : List Nat :=
  match codepage with
  | CodePage.Utf8Lossy =>
    match utf8Decode bytes with
    | some s => s
    | none => windows1252Decode bytes
  | CodePage.Cp437 => bytes.map cp437Char
  | CodePage.Cp850 => bytes.map cp850Char
  | CodePage.Windows1252 => windows1252Decode bytes

/-! ## The ESC/POS decoder (`parse_escpos` in `escpos.rs`)

The Rust `while i < data.len()` loop is embedded as a step function
(one loop iteration) driven by a fuel-indexed loop.  Every Rust buffer
index `data[k]` becomes `data[k]?` and every slice `data[s..e]` becomes
`sliceBytes data s e`; a `none` result models an out-of-bounds access
(a panic).  The totality theorem shows these never fire. -/

/-- Rust slice `data[s..e]`: `none` (a panic) unless `s ≤ e ≤ data.len()`. -/
def sliceBytes (data : List Nat) (s e : Nat) : Option (List Nat) :=
  if s ≤ e ∧ e ≤ data.length then some ((data.drop s).take (e - s)) else none

/-- The predicate of the text-run scan in the final arm of `parse_escpos`:
take bytes until one is `< 0x20` or is ESC (`0x1B`) / GS (`0x1D`). -/
def isTextByte (b : Nat) : Bool :=
  !decide (b < 0x20) && !(decide (b = 0x1B) || decide (b = 0x1D))

/-- ESC arm (`escpos.rs` lines 55-113): dispatch on the opcode byte after
`0x1B`.  `ESC @` resets both the printer state and the QR assembly state,
`ESC E n` sets bold, `ESC a n` sets alignment, anything else emits
`EscUnknown`; a missing opcode or argument byte only advances the cursor. -/
def escArm (data : List Nat) (i : Nat) (st : PrinterState) (qr : QrState) :
    Option (List ParsedCommand × Nat × PrinterState × QrState) :=
  if i + 1 < data.length then
    match data[i + 1]? with
    | Option.none => none
    | some nextByte =>
      if nextByte = 0x40 then
        -- ESC @: push Init with the old state, then reset everything
        some ([(st, CommandType.Control Control.Init)], i + 2,
          PrinterState.default, QrState.default)
      else if nextByte = 0x45 then
        -- ESC E n
        if i + 2 < data.length then
          match data[i + 2]? with
          | Option.none => none
          | some v =>
            let st' := { st with is_bold := v = 1 }
            some ([(st', CommandType.Control (Control.Bold st'.is_bold))],
              i + 3, st', qr)
        else some ([], i + 2, st, qr)
      else if nextByte = 0x61 then
        -- ESC a n
        if i + 2 < data.length then
          match data[i + 2]? with
          | Option.none => none
          | some v =>
            let a := if v = 1 ∨ v = 49 then Align.Center
              else if v = 2 ∨ v = 50 then Align.Right
              else Align.Left
            let st' := { st with alignment := a }
            some ([(st', CommandType.Control (Control.AlignC st'.alignment))],
              i + 3, st', qr)
        else some ([], i + 2, st, qr)
      else
        some ([(st, CommandType.Control (Control.EscUnknown nextByte))],
          i + 2, st, qr)
  else some ([], i + 1, st, qr)

/-- GS H arm (`escpos.rs` lines 121-138): HRI position. -/
def gsHriArm (data : List Nat) (i : Nat) (st : PrinterState) (qr : QrState) :
    Option (List ParsedCommand × Nat × PrinterState × QrState) :=
  if i + 2 < data.length then
    match data[i + 2]? with
    | Option.none => none
    | some n =>
      let p := if n = 1 then BarcodeHriPosition.Above
        else if n = 2 then BarcodeHriPosition.Below
        else if n = 3 then BarcodeHriPosition.Both
        else BarcodeHriPosition.None
      let st' := { st with barcode_hri := p }
      some ([(st', CommandType.Control
          (Control.BarcodeHriPositionC st'.barcode_hri))],
        i + 3, st', qr)
  else some ([], i + 2, st, qr)

/-- GS h arm (`escpos.rs` lines 140-152): barcode height, clamped with
`n.max(1)`. -/
def gsHeightArm (data : List Nat) (i : Nat) (st : PrinterState) (qr : QrState) :
    Option (List ParsedCommand × Nat × PrinterState × QrState) :=
  if i + 2 < data.length then
    match data[i + 2]? with
    | Option.none => none
    | some n =>
      let st' := { st with barcode_height := Nat.max n 1 }
      some ([(st', CommandType.Control
          (Control.BarcodeHeight st'.barcode_height))],
        i + 3, st', qr)
  else some ([], i + 2, st, qr)

/-- GS w arm (`escpos.rs` lines 154-166): barcode module width, clamped
with `n.max(1)`. -/
def gsWidthArm (data : List Nat) (i : Nat) (st : PrinterState) (qr : QrState) :
    Option (List ParsedCommand × Nat × PrinterState × QrState) :=
  if i + 2 < data.length then
    match data[i + 2]? with
    | Option.none => none
    | some n =>
      let st' := { st with barcode_module_width := Nat.max n 1 }
      some ([(st', CommandType.Control
          (Control.BarcodeModuleWidth st'.barcode_module_width))],
        i + 3, st', qr)
  else some ([], i + 2, st, qr)

/-- GS f arm (`escpos.rs` lines 168-180): HRI font. -/
def gsFontArm (data : List Nat) (i : Nat) (st : PrinterState) (qr : QrState) :
    Option (List ParsedCommand × Nat × PrinterState × QrState) :=
  if i + 2 < data.length then
    match data[i + 2]? with
    | Option.none => none
    | some n =>
      let st' := { st with barcode_hri_font := n }
      some ([(st', CommandType.Control
          (Control.BarcodeHriFont st'.barcode_hri_font))],
        i + 3, st', qr)
  else some ([], i + 2, st, qr)

/-- GS v arm (`escpos.rs` lines 181-215): `GS v 0 m xL xH yL yH d...`
raster image.  The pixel byte count is `width_bytes × height`; if the
buffer is too short the code advances only two bytes ("Truncado; consumir
cabecera y seguir") and emits nothing. -/
def gsRasterArm (data : List Nat) (i : Nat) (st : PrinterState) (qr : QrState) :
    Option (List ParsedCommand × Nat × PrinterState × QrState) :=
  if i + 7 < data.length then
    match data[i + 2]? with
    | Option.none => none
    | some c2 =>
      if c2 = 0x30 then
        match data[i + 3]? with
        | Option.none => none
        | some m =>
          match data[i + 4]? with
          | Option.none => none
          | some xl =>
            match data[i + 5]? with
            | Option.none => none
            | some xh =>
              match data[i + 6]? with
              | Option.none => none
              | some yl =>
                match data[i + 7]? with
                | Option.none => none
                | some yh =>
                  let widthBytes := xl ||| (xh <<< 8)
                  let height := yl ||| (yh <<< 8)
                  let dataLen := widthBytes * height
                  let s := i + 8
                  let e := s + dataLen
                  if e ≤ data.length then
                    match sliceBytes data s e with
                    | Option.none => none
                    | some img =>
                      some ([(st, CommandType.Control
                          (Control.RasterImage m widthBytes height img))],
                        e, st, qr)
                  else
                    -- truncated payload: consume and continue
                    some ([], i + 2, st, qr)
      else some ([], i + 2, st, qr)
  else some ([], i + 2, st, qr)

/-- The `fn` dispatch of the QR sub-protocol (`escpos.rs` lines 231-275):
`0x41` set model, `0x43` set module size, `0x45` set ECC, `0x50` store
(only when the sub-mode byte is `0x30`), `0x51` print (only when the
buffer is non-empty, then clear it). -/
def qrDispatch (st : PrinterState) (qr : QrState) (e : Nat)
    (fnByte : Nat) (payload : List Nat) :
    Option (List ParsedCommand × Nat × PrinterState × QrState) :=
  if fnByte = 0x41 then
    let qr' := match payload with
      | p0 :: _ => { qr with model := p0 }
      | [] => qr
    some ([], e, st, qr')
  else if fnByte = 0x43 then
    let qr' := match payload with
      | p0 :: _ => { qr with module_size := p0 }
      | [] => qr
    some ([], e, st, qr')
  else if fnByte = 0x45 then
    let qr' := match payload with
      | p0 :: _ => { qr with ecc := p0 }
      | [] => qr
    some ([], e, st, qr')
  else if fnByte = 0x50 then
    let qr' := match payload with
      | p0 :: rest =>
        if p0 = 0x30 then { qr with data := qr.data ++ rest }
        else qr
      | [] => qr
    some ([], e, st, qr')
  else if fnByte = 0x51 then
    if qr.data ≠ [] then
      some ([(st, CommandType.Control
          (Control.Qr qr.model qr.module_size qr.ecc qr.data))],
        e, st, { qr with data := [] })
    else some ([], e, st, qr)
  else some ([], e, st, qr)

/-- GS ( arm (`escpos.rs` lines 216-291): `GS ( k pL pH cn fn ...`.
`cn = 0x31` drives the QR sub-protocol and always advances to the end of
the declared payload; any other `cn` emits `GsUnknown(0x28)` and advances
two bytes.  A truncated or too-short payload advances two bytes. -/
def gsParenArm (data : List Nat) (i : Nat) (st : PrinterState) (qr : QrState) :
    Option (List ParsedCommand × Nat × PrinterState × QrState) :=
  if i + 5 < data.length then
    match data[i + 2]? with
    | Option.none => none
    | some c2 =>
      if c2 = 0x6B then
        match data[i + 3]? with
        | Option.none => none
        | some pl =>
          match data[i + 4]? with
          | Option.none => none
          | some ph =>
            let total := pl ||| (ph <<< 8)
            let s := i + 5
            let e := s + total
            if e ≤ data.length ∧ 2 ≤ total then
              match data[s]? with
              | Option.none => none
              | some cn =>
                match data[s + 1]? with
                | Option.none => none
                | some fnByte =>
                  match sliceBytes data (s + 2) e with
                  | Option.none => none
                  | some payload =>
                    if cn = 0x31 then
                      qrDispatch st qr e fnByte payload
                    else
                      some ([(st, CommandType.Control (Control.GsUnknown 0x28))],
                        i + 2, st, qr)
            else some ([], i + 2, st, qr)
      else some ([], i + 2, st, qr)
  else some ([], i + 2, st, qr)

/-- GS k arm (`escpos.rs` lines 292-333): barcode data.  Mode `m ≤ 6` is
NUL-terminated (consume through the terminator, or to the end of the
buffer); mode `m > 6` is length-prefixed (`n` payload bytes, skipped
whole only if present). -/
def gsBarcodeArm (data : List Nat) (i : Nat) (st : PrinterState) (qr : QrState) :
    Option (List ParsedCommand × Nat × PrinterState × QrState) :=
  if i + 2 < data.length then
    match data[i + 2]? with
    | Option.none => none
    | some m =>
      if m ≤ 6 then
        -- NUL-terminated payload
        let run := (data.drop (i + 3)).takeWhile fun b => decide (b ≠ 0)
        let j := i + 3 + run.length
        let e := Nat.min j data.length
        match sliceBytes data (i + 3) e with
        | Option.none => none
        | some payload =>
          some ([(st, CommandType.Control (Control.Barcode m payload))],
            (if j < data.length then j + 1 else j), st, qr)
      else
        -- length-prefixed payload
        if i + 3 < data.length then
          match data[i + 3]? with
          | Option.none => none
          | some n =>
            let s := i + 4
            let e := s + n
            if e ≤ data.length then
              match sliceBytes data s e with
              | Option.none => none
              | some payload =>
                some ([(st, CommandType.Control
                    (Control.Barcode m payload))], e, st, qr)
            else some ([], i + 2, st, qr)
        else some ([], i + 2, st, qr)
  else some ([], i + 2, st, qr)

/-- GS ! arm (`escpos.rs` lines 334-356): character size.  The low nibble
is the width, the high nibble the height; each multiplier is
`nibble.saturating_add(1)` and `font_scale` mirrors the height
multiplier. -/
def gsSizeArm (data : List Nat) (i : Nat) (st : PrinterState) (qr : QrState) :
    Option (List ParsedCommand × Nat × PrinterState × QrState) :=
  if i + 2 < data.length then
    match data[i + 2]? with
    | Option.none => none
    | some n =>
      let width := n &&& 0x0F
      let height := (n >>> 4) &&& 0x0F
      let st' := { st with
        char_width_mul := Nat.min (width + 1) 255,
        char_height_mul := Nat.min (height + 1) 255,
        font_scale := Nat.min (height + 1) 255 }
      some ([(st', CommandType.Control (Control.Size n width height))],
        i + 3, st', qr)
  else some ([], i + 2, st, qr)

/-- GS arm (`escpos.rs` lines 116-377): dispatch on the opcode byte after
`0x1D`; `GS V` (cut) skips its common argument byte, unknown opcodes emit
`GsUnknown`. -/
def gsArm (data : List Nat) (i : Nat) (st : PrinterState) (qr : QrState) :
    Option (List ParsedCommand × Nat × PrinterState × QrState) :=
  if i + 1 < data.length then
    match data[i + 1]? with
    | Option.none => none
    | some nextByte =>
      if nextByte = 0x48 then gsHriArm data i st qr
      else if nextByte = 0x68 then gsHeightArm data i st qr
      else if nextByte = 0x77 then gsWidthArm data i st qr
      else if nextByte = 0x66 then gsFontArm data i st qr
      else if nextByte = 0x76 then gsRasterArm data i st qr
      else if nextByte = 0x28 then gsParenArm data i st qr
      else if nextByte = 0x6B then gsBarcodeArm data i st qr
      else if nextByte = 0x21 then gsSizeArm data i st qr
      else if nextByte = 0x56 then
        some ([(st, CommandType.Control Control.Cut)], i + 3, st, qr)
      else
        some ([(st, CommandType.Control (Control.GsUnknown nextByte))],
          i + 2, st, qr)
  else some ([], i + 1, st, qr)

/-- Text arm (`escpos.rs` lines 380-404): greedily take a maximal run of
printable bytes and emit one `Text` command; if the run is empty the
single byte is emitted as `Unknown`. -/
def textArm (cp : CodePage) (data : List Nat) (i : Nat)
    (st : PrinterState) (qr : QrState) (byte : Nat) :
    Option (List ParsedCommand × Nat × PrinterState × QrState) :=
  let textBytes := (data.drop i).takeWhile isTextByte
  if textBytes ≠ [] then
    some ([(st, CommandType.Text (decode_text textBytes cp))],
      i + textBytes.length, st, qr)
  else
    some ([(st, CommandType.Unknown byte)], i + 1, st, qr)

/-- One iteration of the `while` loop of `parse_escpos` (`escpos.rs` lines
40-405), dispatching on `data[i]`.  Returns the commands pushed during the
iteration, the new cursor, and the new printer / QR-assembly state; `none`
models an out-of-bounds buffer access. -/
def parseStep (cp : CodePage) (data : List Nat) (i : Nat)
    (st : PrinterState) (qr : QrState) :
    Option (List ParsedCommand × Nat × PrinterState × QrState) :=
  match data[i]? with
  | Option.none => none
  | some byte =>
    if byte = 0x0A then
      -- LF
      some ([(st, CommandType.Control Control.Newline)], i + 1, st, qr)
    else if byte = 0x0D then
      -- CR: silently consumed
      some ([], i + 1, st, qr)
    else if byte = 0x1B then escArm data i st qr
    else if byte = 0x1D then gsArm data i st qr
    else textArm cp data i st qr byte

/-- The `while i < data.len()` loop of `parse_escpos`, with explicit fuel.
Each iteration advances the cursor by at least one byte, so
`data.length` units of fuel always suffice (proved below). -/
def parseLoop (cp : CodePage) (data : List Nat) :
    Nat → Nat → PrinterState → QrState → Option (List ParsedCommand)
  | 0, i, _, _ => if data.length ≤ i then some [] else none
  | fuel + 1, i, st, qr =>
    if i < data.length then
      match parseStep cp data i st qr with
      | Option.none => none
      | some (cmds, i', st', qr') =>
        match parseLoop cp data fuel i' st' qr' with
        | Option.none => none
        | some rest => some (cmds ++ rest)
    else some []

/-- `escpos.rs`: `pub fn parse_escpos(data, codepage) -> Vec<ParsedCommand>`.
`none` would mean an out-of-bounds access or non-termination; totality is
proved below. -/
def parse_escpos (data : List Nat) (cp : CodePage) : Option (List ParsedCommand) :=
  parseLoop cp data data.length 0 PrinterState.default QrState.default

/-! ## Symbology encoders (`src/app.rs`)

Code128 (`encode_code128_runs`, lines 1236-1408), its HRI cleaner
(`clean_code128_hri`) and the EAN-13/EAN-8 encoder (`encode_ean_runs`,
lines 1410-1525) together with the shared run-length collapser
(`bits01_to_runs`).  Pattern-table strings like `"212222"` / `"0001101"`
from the source are written out as the digit lists they denote (the source
converts them digit-by-digit with `to_digit`/`== b'1'`). -/

/-- `app.rs`: `enum CodeSet { A, B, C }`. -/
inductive CodeSet
  | A
  | B
  | C
deriving DecidableEq

/-- `app.rs` lines 1245-1260: the 107-entry Code128 bar/space width table
(`PATTERNS`); entry 106 is the 7-element Stop pattern. -/
def code128Patterns : List (List Nat) :=
  [[2, 1, 2, 2, 2, 2], [2, 2, 2, 1, 2, 2], [2, 2, 2, 2, 2, 1], [1, 2, 1, 2, 2, 3],
   [1, 2, 1, 3, 2, 2], [1, 3, 1, 2, 2, 2], [1, 2, 2, 2, 1, 3], [1, 2, 2, 3, 1, 2],
   [1, 3, 2, 2, 1, 2], [2, 2, 1, 2, 1, 3], [2, 2, 1, 3, 1, 2], [2, 3, 1, 2, 1, 2],
   [1, 1, 2, 2, 3, 2], [1, 2, 2, 1, 3, 2], [1, 2, 2, 2, 3, 1], [1, 1, 3, 2, 2, 2],
   [1, 2, 3, 1, 2, 2], [1, 2, 3, 2, 2, 1], [2, 2, 3, 2, 1, 1], [2, 2, 1, 1, 3, 2],
   [2, 2, 1, 2, 3, 1], [2, 1, 3, 2, 1, 2], [2, 2, 3, 1, 1, 2], [3, 1, 2, 1, 3, 1],
   [3, 1, 1, 2, 2, 2], [3, 2, 1, 1, 2, 2], [3, 2, 1, 2, 2, 1], [3, 1, 2, 2, 1, 2],
   [3, 2, 2, 1, 1, 2], [3, 2, 2, 2, 1, 1], [2, 1, 2, 1, 2, 3], [2, 1, 2, 3, 2, 1],
   [2, 3, 2, 1, 2, 1], [1, 1, 1, 3, 2, 3], [1, 3, 1, 1, 2, 3], [1, 3, 1, 3, 2, 1],
   [1, 1, 2, 3, 1, 3], [1, 3, 2, 1, 1, 3], [1, 3, 2, 3, 1, 1], [2, 1, 1, 3, 1, 3],
   [2, 3, 1, 1, 1, 3], [2, 3, 1, 3, 1, 1], [1, 1, 2, 1, 3, 3], [1, 1, 2, 3, 3, 1],
   [1, 3, 2, 1, 3, 1], [1, 1, 3, 1, 2, 3], [1, 1, 3, 3, 2, 1], [1, 3, 3, 1, 2, 1],
   [3, 1, 3, 1, 2, 1], [2, 1, 1, 3, 3, 1], [2, 3, 1, 1, 3, 1], [2, 1, 3, 1, 1, 3],
   [2, 1, 3, 3, 1, 1], [2, 1, 3, 1, 3, 1], [3, 1, 1, 1, 2, 3], [3, 1, 1, 3, 2, 1],
   [3, 3, 1, 1, 2, 1], [3, 1, 2, 1, 1, 3], [3, 1, 2, 3, 1, 1], [3, 3, 2, 1, 1, 1],
   [3, 1, 4, 1, 1, 1], [2, 2, 1, 4, 1, 1], [4, 3, 1, 1, 1, 1], [1, 1, 1, 2, 2, 4],
   [1, 1, 1, 4, 2, 2], [1, 2, 1, 1, 2, 4], [1, 2, 1, 4, 2, 1], [1, 4, 1, 1, 2, 2],
   [1, 4, 1, 2, 2, 1], [1, 1, 2, 2, 1, 4], [1, 1, 2, 4, 1, 2], [1, 2, 2, 1, 1, 4],
   [1, 2, 2, 4, 1, 1], [1, 4, 2, 1, 1, 2], [1, 4, 2, 2, 1, 1], [2, 4, 1, 2, 1, 1],
   [2, 2, 1, 1, 1, 4], [4, 1, 3, 1, 1, 1], [2, 4, 1, 1, 1, 2], [1, 3, 4, 1, 1, 1],
   [1, 1, 1, 2, 4, 2], [1, 2, 1, 1, 4, 2], [1, 2, 1, 2, 4, 1], [1, 1, 4, 2, 1, 2],
   [1, 2, 4, 1, 1, 2], [1, 2, 4, 2, 1, 1], [4, 1, 1, 2, 1, 2], [4, 2, 1, 1, 1, 2],
   [4, 2, 1, 2, 1, 1], [2, 1, 2, 1, 4, 1], [2, 1, 4, 1, 2, 1], [4, 1, 2, 1, 2, 1],
   [1, 1, 1, 1, 4, 3], [1, 1, 1, 3, 4, 1], [1, 3, 1, 1, 4, 1], [1, 1, 4, 1, 1, 3],
   [1, 1, 4, 3, 1, 1], [4, 1, 1, 1, 1, 3], [4, 1, 1, 3, 1, 1], [1, 1, 3, 1, 4, 1],
   [1, 1, 4, 1, 3, 1], [3, 1, 1, 1, 4, 1], [4, 1, 1, 1, 3, 1], [2, 1, 1, 4, 1, 2],
   [2, 1, 1, 2, 1, 4], [2, 1, 1, 2, 3, 2], [2, 3, 3, 1, 1, 1, 2]]

/-- `u8::is_ascii_digit`. -/
def isAsciiDigit (c : Nat) : Bool :=
  decide (48 ≤ c ∧ c ≤ 57)

/-- `app.rs` lines 1265-1282: consume a leading `{A` / `{B` / `{C` code-set
marker; the default code set is B. -/
def code128ReadSetMarker : List Nat → CodeSet × List Nat
  | 123 :: 65 :: rest => (CodeSet.A, rest)
  | 123 :: 66 :: rest => (CodeSet.B, rest)
  | 123 :: 67 :: rest => (CodeSet.C, rest)
  | bytes => (CodeSet.B, bytes)

/-- `app.rs` lines 1284-1288: the Start code of each code set. -/
def code128StartCode : CodeSet → Nat
  | CodeSet.A => 103
  | CodeSet.B => 104
  | CodeSet.C => 105

/-- `app.rs` lines 1292-1383: the symbol-value loop.  `{{` is a literal
brace, `{A`/`{B`/`{C` switch code sets, `{1` is FNC1; code set C packs
digit pairs and falls back to B (without consuming input) when the next
two bytes are not both digits; code sets A/B encode one byte each,
out-of-range bytes becoming the value of `?` (31). -/
def code128Codes : CodeSet → List Nat → List Nat
  | _, [] => []
  | CodeSet.B, 123 :: 123 :: rest => 91 :: code128Codes CodeSet.B rest
  | CodeSet.A, 123 :: 123 :: rest => 91 :: code128Codes CodeSet.A rest
  | CodeSet.C, 123 :: 123 :: rest => 100 :: 91 :: code128Codes CodeSet.B rest
  | _, 123 :: 65 :: rest => 101 :: code128Codes CodeSet.A rest
  | _, 123 :: 66 :: rest => 100 :: code128Codes CodeSet.B rest
  | _, 123 :: 67 :: rest => 99 :: code128Codes CodeSet.C rest
  | set, 123 :: 49 :: rest => 102 :: code128Codes set rest
  | CodeSet.C, b :: b1 :: rest =>
    if isAsciiDigit b ∧ isAsciiDigit b1 then
      ((b - 48) * 10 + (b1 - 48)) :: code128Codes CodeSet.C rest
    else
      100 :: code128Codes CodeSet.B (b :: b1 :: rest)
  | CodeSet.C, [b] => 100 :: code128Codes CodeSet.B [b]
  | CodeSet.B, b :: rest =>
    (if 32 ≤ b ∧ b ≤ 127 then b - 32 else 31) :: code128Codes CodeSet.B rest
  | CodeSet.A, b :: rest =>
    (if b < 32 then b + 64 else if b ≤ 95 then b - 32 else 31) ::
      code128Codes CodeSet.A rest
termination_by set bs => 2 * bs.length + (match set with | CodeSet.C => 1 | _ => 0)
decreasing_by all_goals simp [List.length_cons] <;> omega

/-- `app.rs` lines 1386-1389: the checksum accumulation loop.  `sum` is a
`u32` accumulated with `wrapping_add`; `k` is the weight `pos + 1` of the
next code. -/
def code128SumFrom (k : Nat) : List Nat → Nat → Nat
  | [], sum => sum
  | c :: rest, sum => code128SumFrom (k + 1) rest ((sum + c * k) % 2 ^ 32)

/-- `app.rs` lines 1385-1390: `checksum = sum % 103` where `sum` starts at
the Start code and adds `code × (pos + 1)` for each payload code. -/
def code128Checksum (startCode : Nat) (codes : List Nat) : Nat :=
  code128SumFrom 1 codes startCode % 103

/-- The checksum formula exactly as the specification states it:
`Σ value_i × (i + 1)` over the payload symbol values with 1-based position
weights (`code128SpecSum k vs` weights the head of `vs` with `k`).  This
definition follows the spec\'s words and is compared against the
source-derived `code128Checksum` in the C4 theorem. -/
def code128SpecSum (k : Nat) : List Nat → Nat
  | [] => 0
  | v :: rest => v * k + code128SpecSum (k + 1) rest

/-- `app.rs` lines 1209-1232: the character loop of `clean_code128_hri`:
`{{` prints one brace, `{A`/`{B`/`{C` and `{1`..`{4` are stripped, any
other `{` is printed as-is. -/
def cleanHriChars : List Nat → List Nat
  | [] => []
  | 123 :: 123 :: rest => 123 :: cleanHriChars rest
  | 123 :: c :: rest =>
    if c = 65 ∨ c = 66 ∨ c = 67 then cleanHriChars rest
    else if c = 49 ∨ c = 50 ∨ c = 51 ∨ c = 52 then cleanHriChars rest
    else 123 :: cleanHriChars (c :: rest)
  | c :: rest => c :: cleanHriChars rest
termination_by s => s.length
decreasing_by all_goals simp [List.length_cons] <;> omega

/-- `app.rs`: `fn clean_code128_hri(data) -> String` — lossy-decode the
payload, strip one leading `{A`/`{B`/`{C` marker, then clean the rest. -/
def clean_code128_hri (data : List Nat) : List Nat :=
  match utf8DecodeLossy data with
  | 123 :: c :: rest =>
    if c = 65 ∨ c = 66 ∨ c = 67 then cleanHriChars rest
    else cleanHriChars (123 :: c :: rest)
  | s => cleanHriChars s

/-- `app.rs` lines 1398-1405: map every symbol value through `PATTERNS`,
concatenating the digit runs; a table miss (`PATTERNS.get(..)?`) aborts the
whole encode. -/
def code128RunsOf : List Nat → Option (List Nat)
  | [] => some []
  | code :: rest =>
    match code128Patterns[code]? with
    | Option.none => none
    | some pat => (code128RunsOf rest).map (pat ++ ·)

/-- The complete symbol-value sequence built by `encode_code128_runs`:
Start code, payload codes, checksum, Stop (106).  The input is first run
through `String::from_utf8_lossy` / `as_bytes` as in the source. -/
def code128AllCodesOf (data : List Nat) : List Nat :=
  let bytes0 := utf8Encode (utf8DecodeLossy data)
  let sm := code128ReadSetMarker bytes0
  let startCode := code128StartCode sm.1
  let codes := code128Codes sm.1 sm.2
  startCode :: codes ++ [code128Checksum startCode codes, 106]

/-- The checksum symbol value the encoder appends before the Stop code:
the stages of `encode_code128_runs` up to and including the checksum. -/
def code128ChecksumOf (data : List Nat) : Nat :=
  let bytes0 := utf8Encode (utf8DecodeLossy data)
  let sm := code128ReadSetMarker bytes0
  code128Checksum (code128StartCode sm.1) (code128Codes sm.1 sm.2)

/-- `app.rs`: `fn encode_code128_runs(data) -> Option<(Vec<u8>, String)>`. -/
def encode_code128_runs (data : List Nat) : Option (List Nat × List Nat) :=
  let bytes0 := utf8Encode (utf8DecodeLossy data)
  let sm := code128ReadSetMarker bytes0
  match code128RunsOf (code128AllCodesOf data) with
  | Option.none => none
  | some runs => some (runs, clean_code128_hri sm.2)

/-- `app.rs` lines 1170-1189: `fn bits01_to_runs(bits) -> Option<(Vec<u8>, bool)>`
collapses a 0/1 bit string into run lengths (each clamped at 255) plus a
flag telling whether the first run is black (bit 1). -/
def bits01_to_runs (bits : List Nat) : Option (List Nat × Bool) :=
  match bits with
  | [] => none
  | b0 :: _ =>
    let acc := bits.foldl
      (fun (acc : List Nat × Nat × Nat) b =>
        if b = acc.2.1 then (acc.1, acc.2.1, acc.2.2 + 1)
        else (acc.1 ++ [Nat.min acc.2.2 255], b, 1))
      ([], b0, 0)
    some (acc.1 ++ [Nat.min acc.2.2 255], decide (b0 = 1))

/-- `char::to_digit(10)`. -/
def charToDigit (c : Nat) : Option Nat :=
  if 48 ≤ c ∧ c ≤ 57 then some (c - 48) else none

/-- `app.rs` lines 1415-1424: the EAN check-digit weighted sum — digits are
enumerated from the rightmost, with weights 3, 1, 3, 1, ...; non-digits
count as 0 (`unwrap_or(0)`). -/
def eanWeightedSum (s : List Nat) : Nat :=
  (s.reverse.enum.map fun p =>
    (match charToDigit p.2 with | some d => d | Option.none => 0) *
      (if p.1 % 2 = 0 then 3 else 1)).sum

/-- `app.rs` line 1425: `chk = (10 - (sum % 10)) % 10`. -/
def eanCheckDigit (s : List Nat) : Nat :=
  (10 - eanWeightedSum s % 10) % 10

/-- `app.rs`: the `L` digit patterns (odd-parity left half). -/
def eanL : List (List Nat) :=
  [[0, 0, 0, 1, 1, 0, 1], [0, 0, 1, 1, 0, 0, 1], [0, 0, 1, 0, 0, 1, 1],
   [0, 1, 1, 1, 1, 0, 1], [0, 1, 0, 0, 0, 1, 1], [0, 1, 1, 0, 0, 0, 1],
   [0, 1, 0, 1, 1, 1, 1], [0, 1, 1, 1, 0, 1, 1], [0, 1, 1, 0, 1, 1, 1],
   [0, 0, 0, 1, 0, 1, 1]]

/-- `app.rs`: the `G` digit patterns (even-parity left half, EAN-13 only). -/
def eanG : List (List Nat) :=
  [[0, 1, 0, 0, 1, 1, 1], [0, 1, 1, 0, 0, 1, 1], [0, 0, 1, 1, 0, 1, 1],
   [0, 1, 0, 0, 0, 0, 1], [0, 0, 1, 1, 1, 0, 1], [0, 1, 1, 1, 0, 0, 1],
   [0, 0, 0, 0, 1, 0, 1], [0, 0, 1, 0, 0, 0, 1], [0, 0, 0, 1, 0, 0, 1],
   [0, 0, 1, 0, 1, 1, 1]]

/-- `app.rs`: the `R` digit patterns (right half). -/
def eanR : List (List Nat) :=
  [[1, 1, 1, 0, 0, 1, 0], [1, 1, 0, 0, 1, 1, 0], [1, 1, 0, 1, 1, 0, 0],
   [1, 0, 0, 0, 0, 1, 0], [1, 0, 1, 1, 1, 0, 0], [1, 0, 0, 1, 1, 1, 0],
   [1, 0, 1, 0, 0, 0, 0], [1, 0, 0, 0, 1, 0, 0], [1, 0, 0, 1, 0, 0, 0],
   [1, 1, 1, 0, 1, 0, 0]]

/-- Left-half parity selector letters (`L` = odd, `G` = even). -/
inductive EanParity
  | L
  | G
deriving DecidableEq

/-- `app.rs`: the `PAR` table — parity pattern of the six left digits,
selected by the first digit of an EAN-13 payload. -/
def eanParities : List (List EanParity) :=
  [[EanParity.L, EanParity.L, EanParity.L, EanParity.L, EanParity.L, EanParity.L],
   [EanParity.L, EanParity.L, EanParity.G, EanParity.L, EanParity.G, EanParity.G],
   [EanParity.L, EanParity.L, EanParity.G, EanParity.G, EanParity.L, EanParity.G],
   [EanParity.L, EanParity.L, EanParity.G, EanParity.G, EanParity.G, EanParity.L],
   [EanParity.L, EanParity.G, EanParity.L, EanParity.L, EanParity.G, EanParity.G],
   [EanParity.L, EanParity.G, EanParity.G, EanParity.L, EanParity.L, EanParity.G],
   [EanParity.L, EanParity.G, EanParity.G, EanParity.G, EanParity.L, EanParity.L],
   [EanParity.L, EanParity.G, EanParity.L, EanParity.G, EanParity.L, EanParity.G],
   [EanParity.L, EanParity.G, EanParity.L, EanParity.G, EanParity.G, EanParity.L],
   [EanParity.L, EanParity.G, EanParity.G, EanParity.L, EanParity.G, EanParity.L]]

/-- `app.rs` lines 1456-1466: bits of the six left digits of an EAN-13
payload, one pattern per digit, chosen by the running parity letter
(`parity.chars().nth(i)?`; a missing letter aborts).  The table index `d`
comes from `to_digit` so is always in range; `getD` matches the source\'s
infallible `L[d]` / `G[d]` indexing. -/
def eanLeftBits : List EanParity → List Nat → Option (List Nat)
  | _, [] => some []
  | ps, c :: cs =>
    match charToDigit c with
    | Option.none => none
    | some d =>
      match ps with
      | [] => none
      | p :: ps1 =>
        let pat := match p with
          | EanParity.L => eanL.getD d []
          | EanParity.G => eanG.getD d []
        (eanLeftBits ps1 cs).map (pat ++ ·)

/-- `app.rs` lines 1470-1476 / 1509-1514: bits of right-half (or plain
left-half, for EAN-8) digits using a single pattern table. -/
def eanTableBits (table : List (List Nat)) : List Nat → Option (List Nat)
  | [] => some []
  | c :: cs =>
    match charToDigit c with
    | Option.none => none
    | some d => (eanTableBits table cs).map (table.getD d [] ++ ·)

/-- `app.rs`: `fn encode_ean_runs(digits) -> Option<(Vec<u8>, String)>`:
filter to digits, auto-extend 7- or 12-digit payloads with the check
digit, then encode 13 digits as EAN-13 or 8 digits as EAN-8; any other
length yields `None`. -/
def encode_ean_runs (digits : List Nat) : Option (List Nat × List Nat) :=
  let s0 := digits.filter isAsciiDigit
  let s := if s0.length = 7 ∨ s0.length = 12
    then s0 ++ [48 + eanCheckDigit s0] else s0
  if s.length = 13 then
    match s.head? with
    | Option.none => none
    | some firstChar =>
      match charToDigit firstChar with
      | Option.none => none
      | some first =>
        let parity := eanParities.getD first []
        let left := (s.drop 1).take 6
        let right := (s.drop 7).take 6
        match eanLeftBits parity left with
        | Option.none => none
        | some lb =>
          match eanTableBits eanR right with
          | Option.none => none
          | some rb =>
            let bits := [1, 0, 1] ++ lb ++ [0, 1, 0, 1, 0] ++ rb ++ [1, 0, 1]
            match bits01_to_runs bits with
            | Option.none => none
            | some (runs, startBlack) =>
              if !startBlack then none else some (runs, s)
  else if s.length = 8 then
    let left := s.take 4
    let right := (s.drop 4).take 4
    match eanTableBits eanL left with
    | Option.none => none
    | some lb =>
      match eanTableBits eanR right with
      | Option.none => none
      | some rb =>
        let bits := [1, 0, 1] ++ lb ++ [0, 1, 0, 1, 0] ++ rb ++ [1, 0, 1]
        match bits01_to_runs bits with
        | Option.none => none
        | some (runs, startBlack) =>
          if !startBlack then none else some (runs, s)
  else none

/-! ## Job capture (`read_one_job` in `src/tcp_capture.rs`)

The per-connection read loop is embedded as a pure fold over the finite
trace of results the socket reads return.  `Ok(0)` is a clean EOF,
`Ok(n)` delivers bytes, `WouldBlock` re-loops, `TimedOut` ends the job by
inactivity, and any other error returns early through `Err`.  A trace that
ends without a terminal event is treated as a clean EOF. -/

/-- One result of `stream.read(&mut tmp)` as matched by `read_one_job`. -/
inductive ReadEvent
  | chunk (bytes : List Nat)
  | eof
  | wouldBlock
  | timedOut
  | fatal
deriving DecidableEq

/-- The `loop { match stream.read(..) }` of `read_one_job`: accumulate
bytes until EOF / timeout (normal exit, `false`) or a non-timeout error
(early `return Err(e)`, `true`). -/
def readJobLoop : List ReadEvent → List Nat → List Nat × Bool
  | [], buf => (buf, false)
  | e :: rest, buf =>
    match e with
    | ReadEvent.chunk bs => readJobLoop rest (buf ++ bs)
    | ReadEvent.eof => (buf, false)
    | ReadEvent.wouldBlock => readJobLoop rest buf
    | ReadEvent.timedOut => (buf, false)
    | ReadEvent.fatal => (buf, true)

/-- `tcp_capture.rs` lines 92-131: `read_one_job`.  Returns the jobs sent
on the channel (at most one) and the `io::Result<()>` outcome.  On a
non-timeout read error the function returns `Err` before the flush, so the
accumulated buffer is dropped; otherwise a non-empty buffer is sent as one
job and an empty buffer is dropped. -/
def read_one_job (events : List ReadEvent) : List (List Nat) × Except Unit Unit :=
  match readJobLoop events [] with
  | (_, true) => ([], Except.error ())
  | (buf, false) =>
    if buf ≠ [] then ([buf], Except.ok ()) else ([], Except.ok ())

/-! ## Decoder totality: every step succeeds and advances the cursor -/

theorem sliceBytes_eq_none_iff {data : List Nat} {s e : Nat} :
    sliceBytes data s e = none ↔ ¬(s ≤ e ∧ e ≤ data.length) := by
  simp [sliceBytes]

theorem elim_mono {α : Type} {o : Option α} {P Q : α → Prop}
    (h : Option.elim o False P) (imp : ∀ a, P a → Q a) :
    Option.elim o False Q := by
  cases o with
  | none => exact h.elim
  | some a => exact imp a h

theorem escArm_total_elim {data : List Nat} {i : Nat}
    {st : PrinterState} {qr : QrState} (h : i < data.length) :
    Option.elim (escArm data i st qr) False (fun out => i < out.2.1) := by
  simp only [escArm]
  repeat' split
  all_goals
    first
    | (simp only [Option.elim]; omega)
    | ((exfalso; simp_all [List.getElem?_eq_none_iff]) <;> omega)

theorem gsHriArm_total_elim {data : List Nat} {i : Nat}
    {st : PrinterState} {qr : QrState} (h : i < data.length) :
    Option.elim (gsHriArm data i st qr) False (fun out => i < out.2.1) := by
  simp only [gsHriArm]
  repeat' split
  all_goals
    first
    | (simp only [Option.elim]; omega)
    | ((exfalso; simp_all [List.getElem?_eq_none_iff]) <;> omega)

theorem gsHeightArm_total_elim {data : List Nat} {i : Nat}
    {st : PrinterState} {qr : QrState} (h : i < data.length) :
    Option.elim (gsHeightArm data i st qr) False (fun out => i < out.2.1) := by
  simp only [gsHeightArm]
  repeat' split
  all_goals
    first
    | (simp only [Option.elim]; omega)
    | ((exfalso; simp_all [List.getElem?_eq_none_iff]) <;> omega)

theorem gsWidthArm_total_elim {data : List Nat} {i : Nat}
    {st : PrinterState} {qr : QrState} (h : i < data.length) :
    Option.elim (gsWidthArm data i st qr) False (fun out => i < out.2.1) := by
  simp only [gsWidthArm]
  repeat' split
  all_goals
    first
    | (simp only [Option.elim]; omega)
    | ((exfalso; simp_all [List.getElem?_eq_none_iff]) <;> omega)

theorem gsFontArm_total_elim {data : List Nat} {i : Nat}
    {st : PrinterState} {qr : QrState} (h : i < data.length) :
    Option.elim (gsFontArm data i st qr) False (fun out => i < out.2.1) := by
  simp only [gsFontArm]
  repeat' split
  all_goals
    first
    | (simp only [Option.elim]; omega)
    | ((exfalso; simp_all [List.getElem?_eq_none_iff]) <;> omega)

theorem gsRasterArm_total_elim {data : List Nat} {i : Nat}
    {st : PrinterState} {qr : QrState} (h : i < data.length) :
    Option.elim (gsRasterArm data i st qr) False (fun out => i < out.2.1) := by
  simp only [gsRasterArm]
  repeat' split
  all_goals
    first
    | (simp only [Option.elim]; omega)
    | ((exfalso; simp_all [List.getElem?_eq_none_iff, sliceBytes_eq_none_iff]) <;> omega)

theorem qrDispatch_total_elim {st : PrinterState} {qr : QrState}
    {e fnByte : Nat} {payload : List Nat} :
    Option.elim (qrDispatch st qr e fnByte payload) False
      (fun out => out.2.1 = e) := by
  simp only [qrDispatch]
  repeat' split
  all_goals simp only [Option.elim]

theorem gsParenArm_total_elim {data : List Nat} {i : Nat}
    {st : PrinterState} {qr : QrState} (h : i < data.length) :
    Option.elim (gsParenArm data i st qr) False (fun out => i < out.2.1) := by
  simp only [gsParenArm]
  repeat' split
  all_goals
    first
    | (simp only [Option.elim]; omega)
    | ((exfalso; simp_all [List.getElem?_eq_none_iff, sliceBytes_eq_none_iff]) <;> omega)
    | (exact elim_mono qrDispatch_total_elim (fun a ha => by omega))

theorem gsBarcodeArm_total_elim {data : List Nat} {i : Nat}
    {st : PrinterState} {qr : QrState} (h : i < data.length) :
    Option.elim (gsBarcodeArm data i st qr) False (fun out => i < out.2.1) := by
  simp only [gsBarcodeArm]
  repeat' split
  all_goals
    first
    | (simp only [Option.elim]; omega)
    | ((exfalso; simp_all [List.getElem?_eq_none_iff, sliceBytes_eq_none_iff]) <;> omega)

theorem gsSizeArm_total_elim {data : List Nat} {i : Nat}
    {st : PrinterState} {qr : QrState} (h : i < data.length) :
    Option.elim (gsSizeArm data i st qr) False (fun out => i < out.2.1) := by
  simp only [gsSizeArm]
  repeat' split
  all_goals
    first
    | (simp only [Option.elim]; omega)
    | ((exfalso; simp_all [List.getElem?_eq_none_iff]) <;> omega)

theorem gsArm_total_elim {data : List Nat} {i : Nat}
    {st : PrinterState} {qr : QrState} (h : i < data.length) :
    Option.elim (gsArm data i st qr) False (fun out => i < out.2.1) := by
  simp only [gsArm]
  repeat' split
  all_goals
    first
    | (simp only [Option.elim]; omega)
    | ((exfalso; simp_all [List.getElem?_eq_none_iff]) <;> omega)
    | exact gsHriArm_total_elim h
    | exact gsHeightArm_total_elim h
    | exact gsWidthArm_total_elim h
    | exact gsFontArm_total_elim h
    | exact gsRasterArm_total_elim h
    | exact gsParenArm_total_elim h
    | exact gsBarcodeArm_total_elim h
    | exact gsSizeArm_total_elim h

theorem textArm_total_elim {cp : CodePage} {data : List Nat} {i : Nat}
    {st : PrinterState} {qr : QrState} {byte : Nat} (h : i < data.length) :
    Option.elim (textArm cp data i st qr byte) False (fun out => i < out.2.1) := by
  by_cases htb : (data.drop i).takeWhile isTextByte = []
  · simp only [textArm, htb, ne_eq, not_true_eq_false, if_false, Option.elim]
    omega
  · have hpos := List.length_pos.mpr htb
    simp only [textArm, htb, ne_eq, not_false_eq_true, if_true, Option.elim]
    omega

theorem parseStep_total_elim {cp : CodePage} {data : List Nat} {i : Nat}
    {st : PrinterState} {qr : QrState} (h : i < data.length) :
    Option.elim (parseStep cp data i st qr) False (fun out => i < out.2.1) := by
  have hbyte : data[i]? = some data[i] := List.getElem?_eq_getElem h
  unfold parseStep
  rw [hbyte]
  repeat' split
  all_goals
    first
    | (simp only [Option.elim]; omega)
    | (exfalso; simp_all; done)
    | exact escArm_total_elim h
    | exact gsArm_total_elim h
    | exact textArm_total_elim h

theorem parseStep_total {cp : CodePage} {data : List Nat} {i : Nat}
    {st : PrinterState} {qr : QrState} (h : i < data.length) :
    ∃ out, parseStep cp data i st qr = some out ∧ i < out.2.1 := by
  have helim := @parseStep_total_elim cp data i st qr h
  cases hp : parseStep cp data i st qr with
  | none => rw [hp] at helim; exact absurd helim (by simp [Option.elim])
  | some out => rw [hp] at helim; exact ⟨out, rfl, helim⟩

theorem parseLoop_total {cp : CodePage} {data : List Nat} :
    ∀ fuel i st qr, data.length - i ≤ fuel →
      ∃ cmds, parseLoop cp data fuel i st qr = some cmds := by
  intro fuel
  induction fuel with
  | zero =>
    intro i st qr hf
    refine ⟨[], ?_⟩
    simp only [parseLoop]
    exact if_pos (by omega)
  | succ n ih =>
    intro i st qr hf
    by_cases hi : i < data.length
    · obtain ⟨⟨cmds0, i', st', qr'⟩, hstep, hadv⟩ :=
        @parseStep_total cp data i st qr hi
      obtain ⟨cmds, hrec⟩ := ih i' st' qr' (by simp at hadv; omega)
      refine ⟨cmds0 ++ cmds, ?_⟩
      simp only [parseLoop, if_pos hi, hstep, hrec]
    · refine ⟨[], ?_⟩
      simp only [parseLoop, if_neg hi]

/-! ## Emission invariants

`stInv` is the state invariant of the spec: character width/height
multipliers are at least 1.  `goodCmd` bundles it with the observation
that no arm of the decoder ever constructs `Control::Tab`. -/

def stInv (st : PrinterState) : Prop :=
  1 ≤ st.char_width_mul ∧ 1 ≤ st.char_height_mul

def goodCmd (pc : ParsedCommand) : Prop :=
  stInv pc.1 ∧ pc.2 ≠ CommandType.Control Control.Tab

theorem escArm_emits {data : List Nat} {i : Nat} {st : PrinterState}
    {qr : QrState} {out} (hst : stInv st) (h : escArm data i st qr = some out) :
    (∀ pc ∈ out.1, goodCmd pc) ∧ stInv out.2.2.1 := by
  simp only [escArm] at h
  repeat' split at h
  all_goals
    first
    | (cases h; simp_all [stInv, goodCmd, PrinterState.default]; done)
    | ((cases h; simp_all [stInv, goodCmd, PrinterState.default]) <;> omega)
    | (exfalso; simp_all; done)

theorem gsHriArm_emits {data : List Nat} {i : Nat} {st : PrinterState}
    {qr : QrState} {out} (hst : stInv st) (h : gsHriArm data i st qr = some out) :
    (∀ pc ∈ out.1, goodCmd pc) ∧ stInv out.2.2.1 := by
  simp only [gsHriArm] at h
  repeat' split at h
  all_goals
    first
    | (cases h; simp_all [stInv, goodCmd]; done)
    | ((cases h; simp_all [stInv, goodCmd]) <;> omega)
    | (exfalso; simp_all; done)

theorem gsHeightArm_emits {data : List Nat} {i : Nat} {st : PrinterState}
    {qr : QrState} {out} (hst : stInv st) (h : gsHeightArm data i st qr = some out) :
    (∀ pc ∈ out.1, goodCmd pc) ∧ stInv out.2.2.1 := by
  simp only [gsHeightArm] at h
  repeat' split at h
  all_goals
    first
    | (cases h; simp_all [stInv, goodCmd]; done)
    | ((cases h; simp_all [stInv, goodCmd]) <;> omega)
    | (exfalso; simp_all; done)

theorem gsWidthArm_emits {data : List Nat} {i : Nat} {st : PrinterState}
    {qr : QrState} {out} (hst : stInv st) (h : gsWidthArm data i st qr = some out) :
    (∀ pc ∈ out.1, goodCmd pc) ∧ stInv out.2.2.1 := by
  simp only [gsWidthArm] at h
  repeat' split at h
  all_goals
    first
    | (cases h; simp_all [stInv, goodCmd]; done)
    | ((cases h; simp_all [stInv, goodCmd]) <;> omega)
    | (exfalso; simp_all; done)

theorem gsFontArm_emits {data : List Nat} {i : Nat} {st : PrinterState}
    {qr : QrState} {out} (hst : stInv st) (h : gsFontArm data i st qr = some out) :
    (∀ pc ∈ out.1, goodCmd pc) ∧ stInv out.2.2.1 := by
  simp only [gsFontArm] at h
  repeat' split at h
  all_goals
    first
    | (cases h; simp_all [stInv, goodCmd]; done)
    | ((cases h; simp_all [stInv, goodCmd]) <;> omega)
    | (exfalso; simp_all; done)

theorem gsRasterArm_emits {data : List Nat} {i : Nat} {st : PrinterState}
    {qr : QrState} {out} (hst : stInv st) (h : gsRasterArm data i st qr = some out) :
    (∀ pc ∈ out.1, goodCmd pc) ∧ stInv out.2.2.1 := by
  simp only [gsRasterArm] at h
  repeat' split at h
  all_goals
    first
    | (cases h; simp_all [stInv, goodCmd]; done)
    | ((cases h; simp_all [stInv, goodCmd]) <;> omega)
    | (exfalso; simp_all; done)

theorem qrDispatch_emits {st : PrinterState} {qr : QrState} {e fnByte : Nat}
    {payload : List Nat} {out} (hst : stInv st)
    (h : qrDispatch st qr e fnByte payload = some out) :
    (∀ pc ∈ out.1, goodCmd pc) ∧ stInv out.2.2.1 := by
  simp only [qrDispatch] at h
  repeat' split at h
  all_goals
    first
    | (cases h; simp_all [stInv, goodCmd]; done)
    | ((cases h; simp_all [stInv, goodCmd]) <;> omega)
    | (exfalso; simp_all; done)

theorem gsParenArm_emits {data : List Nat} {i : Nat} {st : PrinterState}
    {qr : QrState} {out} (hst : stInv st) (h : gsParenArm data i st qr = some out) :
    (∀ pc ∈ out.1, goodCmd pc) ∧ stInv out.2.2.1 := by
  simp only [gsParenArm] at h
  repeat' split at h
  all_goals
    first
    | (cases h; simp_all [stInv, goodCmd]; done)
    | ((cases h; simp_all [stInv, goodCmd]) <;> omega)
    | (exfalso; simp_all; done)
    | exact qrDispatch_emits hst h

theorem gsBarcodeArm_emits {data : List Nat} {i : Nat} {st : PrinterState}
    {qr : QrState} {out} (hst : stInv st) (h : gsBarcodeArm data i st qr = some out) :
    (∀ pc ∈ out.1, goodCmd pc) ∧ stInv out.2.2.1 := by
  simp only [gsBarcodeArm] at h
  repeat' split at h
  all_goals
    first
    | (cases h; simp_all [stInv, goodCmd]; done)
    | ((cases h; simp_all [stInv, goodCmd]) <;> omega)
    | (exfalso; simp_all; done)

theorem gsSizeArm_emits {data : List Nat} {i : Nat} {st : PrinterState}
    {qr : QrState} {out} (hst : stInv st) (h : gsSizeArm data i st qr = some out) :
    (∀ pc ∈ out.1, goodCmd pc) ∧ stInv out.2.2.1 := by
  simp only [gsSizeArm] at h
  repeat' split at h
  all_goals
    first
    | (cases h; simp_all [stInv, goodCmd]; done)
    | ((cases h; simp_all [stInv, goodCmd]) <;> omega)
    | (exfalso; simp_all; done)

theorem gsArm_emits {data : List Nat} {i : Nat} {st : PrinterState}
    {qr : QrState} {out} (hst : stInv st) (h : gsArm data i st qr = some out) :
    (∀ pc ∈ out.1, goodCmd pc) ∧ stInv out.2.2.1 := by
  simp only [gsArm] at h
  repeat' split at h
  all_goals
    first
    | (cases h; simp_all [stInv, goodCmd]; done)
    | ((cases h; simp_all [stInv, goodCmd]) <;> omega)
    | (exfalso; simp_all; done)
    | exact gsHriArm_emits hst h
    | exact gsHeightArm_emits hst h
    | exact gsWidthArm_emits hst h
    | exact gsFontArm_emits hst h
    | exact gsRasterArm_emits hst h
    | exact gsParenArm_emits hst h
    | exact gsBarcodeArm_emits hst h
    | exact gsSizeArm_emits hst h

theorem textArm_emits {cp : CodePage} {data : List Nat} {i : Nat}
    {st : PrinterState} {qr : QrState} {byte : Nat} {out} (hst : stInv st)
    (h : textArm cp data i st qr byte = some out) :
    (∀ pc ∈ out.1, goodCmd pc) ∧ stInv out.2.2.1 := by
  simp only [textArm] at h
  repeat' split at h
  all_goals
    first
    | (cases h; simp_all [stInv, goodCmd]; done)
    | ((cases h; simp_all [stInv, goodCmd]) <;> omega)
    | (exfalso; simp_all; done)

theorem parseStep_emits {cp : CodePage} {data : List Nat} {i : Nat}
    {st : PrinterState} {qr : QrState} {out} (hst : stInv st)
    (h : parseStep cp data i st qr = some out) :
    (∀ pc ∈ out.1, goodCmd pc) ∧ stInv out.2.2.1 := by
  simp only [parseStep] at h
  repeat' split at h
  all_goals
    first
    | (cases h; simp_all [stInv, goodCmd]; done)
    | ((cases h; simp_all [stInv, goodCmd]) <;> omega)
    | (exfalso; simp_all; done)
    | exact escArm_emits hst h
    | exact gsArm_emits hst h
    | exact textArm_emits hst h

theorem parseLoop_emits {cp : CodePage} {data : List Nat} :
    ∀ fuel i st qr cmds, stInv st →
      parseLoop cp data fuel i st qr = some cmds →
      ∀ pc ∈ cmds, goodCmd pc := by
  intro fuel
  induction fuel with
  | zero =>
    intro i st qr cmds _ h pc hpc
    simp only [parseLoop] at h
    split at h
    · cases h; simp at hpc
    · exact absurd h (by simp)
  | succ n ih =>
    intro i st qr cmds hst h pc hpc
    simp only [parseLoop] at h
    split at h
    · cases hstep : parseStep cp data i st qr with
      | none => rw [hstep] at h; exact absurd h (by simp)
      | some out =>
        obtain ⟨cmds0, i', st', qr'⟩ := out
        obtain ⟨hcmds, hst'⟩ := parseStep_emits hst hstep
        rw [hstep] at h
        simp only at h
        cases hrec : parseLoop cp data n i' st' qr' with
        | none =>
          rw [hrec] at h; exact absurd h (by simp)
        | some rest =>
          rw [hrec] at h
          simp only [Option.some.injEq] at h
          subst h
          rcases List.mem_append.mp hpc with hmem | hmem
          · exact hcmds pc hmem
          · exact ih i' st' qr' rest hst' hrec pc hmem
    · cases h; simp at hpc

/-- Dispatching on a horizontal-tab byte (`0x09`): no opcode arm matches,
the byte cannot start a text run (it is below `0x20`), so it is emitted as
`Unknown 0x09` and the cursor advances one byte. -/
theorem parseStep_tab_byte {cp : CodePage} {data : List Nat} {i : Nat}
    {st : PrinterState} {qr : QrState} (hb : data[i]? = some 0x09) :
    parseStep cp data i st qr =
      some ([(st, CommandType.Unknown 0x09)], i + 1, st, qr) := by
  have hlt : i < data.length := (List.getElem?_eq_some_iff.mp hb).1
  have hdrop : data.drop i = 9 :: data.drop (i + 1) := by
    rw [List.drop_eq_getElem_cons hlt]
    have hval : data[i] = 9 := by
      simpa [List.getElem?_eq_getElem hlt] using hb
    rw [hval]
  simp [parseStep, hb, textArm, hdrop, isTextByte]

/-! ## Claim theorems -/

/-- C1: for every input byte buffer (including the empty buffer,
single-byte buffers, and buffers ending inside a multi-byte opcode) and
every codepage selector, the decoder `parse_escpos` terminates and returns
a finite command list, and every buffer access it performs is in bounds
(`none` in the embedding marks an out-of-bounds access, and is never
produced). -/
theorem c1_decoder_total :
    ∀ (data : List Nat) (cp : CodePage),
      ∃ cmds, parse_escpos data cp = some cmds := by
  intro data cp
  have := @parseLoop_total cp data data.length 0
    PrinterState.default QrState.default (by omega)
  simpa [parse_escpos] using this

/-- C2: decoding the reset opcode (ESC @, `0x1B 0x40`) at any position,
from any printer state and any in-progress QR assembly state, pushes
`Init` (with the pre-reset snapshot) and replaces every `PrinterState`
field with its default value while clearing the QR assembly state (model
back to 2, module size to 4, ecc to 48, payload buffer emptied), so
commands emitted afterwards carry the default state until it is mutated
again. -/
theorem c2_reset_restores_default :
    ∀ (cp : CodePage) (data : List Nat) (i : Nat)
      (st : PrinterState) (qr : QrState),
      data[i]? = some 0x1B → data[i + 1]? = some 0x40 →
      parseStep cp data i st qr =
        some ([(st, CommandType.Control Control.Init)], i + 2,
          PrinterState.default, QrState.default) ∧
      QrState.default = { model := 2, module_size := 4, ecc := 48, data := [] } := by
  intro cp data i st qr h1 h2
  have hlt : i + 1 < data.length := (List.getElem?_eq_some_iff.mp h2).1
  constructor
  · simp [parseStep, h1, escArm, hlt, h2]
  · rfl

/-- Witness for C2: a concrete reset decoded from a fully mutated state. -/
theorem c2_reset_restores_default_witness :
    parseStep CodePage.Utf8Lossy [0x1B, 0x40] 0
        (⟨true, true, true, Align.Right, 7, 7, 7, some 9, some 9,
          BarcodeHriPosition.Both, 9, 9, 9⟩ : PrinterState)
        (⟨1, 8, 51, [1, 2, 3]⟩ : QrState) =
      some ([((⟨true, true, true, Align.Right, 7, 7, 7, some 9, some 9,
          BarcodeHriPosition.Both, 9, 9, 9⟩ : PrinterState),
        CommandType.Control Control.Init)], 2,
        PrinterState.default, QrState.default) ∧
    QrState.default = { model := 2, module_size := 4, ecc := 48, data := [] } :=
  c2_reset_restores_default CodePage.Utf8Lossy [0x1B, 0x40] 0
    (⟨true, true, true, Align.Right, 7, 7, 7, some 9, some 9,
      BarcodeHriPosition.Both, 9, 9, 9⟩ : PrinterState)
    (⟨1, 8, 51, [1, 2, 3]⟩ : QrState)
    (by decide) (by decide)

/-- C9: every `PrinterState` snapshot attached to an emitted command has
character width multiplier ≥ 1 and character height multiplier ≥ 1, for
every input buffer and codepage: the default state satisfies this and
every state-mutating opcode (including GS ! n for any argument byte)
preserves it. -/
theorem c9_multipliers_at_least_one :
    ∀ (data : List Nat) (cp : CodePage) (cmds : List ParsedCommand),
      parse_escpos data cp = some cmds →
      ∀ pc ∈ cmds, 1 ≤ pc.1.char_width_mul ∧ 1 ≤ pc.1.char_height_mul := by
  intro data cp cmds h pc hpc
  have hdef : stInv PrinterState.default := by
    constructor <;> simp [PrinterState.default]
  have := parseLoop_emits data.length 0 PrinterState.default QrState.default
    cmds hdef (by simpa [parse_escpos] using h) pc hpc
  exact this.1

/-- Witness for C9: the snapshot on a decoded newline command. -/
theorem c9_multipliers_at_least_one_witness :
    1 ≤ ((PrinterState.default, CommandType.Control Control.Newline) :
        ParsedCommand).1.char_width_mul ∧
    1 ≤ ((PrinterState.default, CommandType.Control Control.Newline) :
        ParsedCommand).1.char_height_mul :=
  c9_multipliers_at_least_one [0x0A] CodePage.Utf8Lossy
    [(PrinterState.default, CommandType.Control Control.Newline)]
    (by decide) (PrinterState.default, CommandType.Control Control.Newline)
    (by decide)

/-- C10: `parse_escpos` never emits a `Control(Tab)` command, for any
input and codepage, even though the variant exists in the data model; and
a dispatched `0x09` byte — unmatched by any opcode arm and unable to start
a text run — is emitted as `Unknown 0x09`. -/
theorem c10_tab_never_emitted :
    (∀ (data : List Nat) (cp : CodePage) (cmds : List ParsedCommand),
      parse_escpos data cp = some cmds →
      ∀ pc ∈ cmds, pc.2 ≠ CommandType.Control Control.Tab) ∧
    (∀ (cp : CodePage) (data : List Nat) (i : Nat)
      (st : PrinterState) (qr : QrState),
      data[i]? = some 0x09 →
      parseStep cp data i st qr =
        some ([(st, CommandType.Unknown 0x09)], i + 1, st, qr)) := by
  constructor
  · intro data cp cmds h pc hpc
    have hdef : stInv PrinterState.default := by
      constructor <;> simp [PrinterState.default]
    exact (parseLoop_emits data.length 0 PrinterState.default QrState.default
      cmds hdef (by simpa [parse_escpos] using h) pc hpc).2
  · intro cp data i st qr hb
    exact parseStep_tab_byte hb

/-- C3: the QR sub-protocol sequence set-model(2), set-size(4),
set-ecc(48), store("HI"), print() produces exactly one `Qr` command with
payload `"HI"`, model 2, module size 4, ecc 48; a second print() against
the now-empty buffer produces no further `Qr`; store appends to the
assembly buffer only when the leading sub-mode byte is `0x30`; and print
with an empty buffer emits nothing. -/
theorem c3_qr_store_print :
    (parse_escpos
        ([0x1D, 0x28, 0x6B, 0x04, 0x00, 0x31, 0x41, 0x02, 0x00] ++
         [0x1D, 0x28, 0x6B, 0x03, 0x00, 0x31, 0x43, 0x04] ++
         [0x1D, 0x28, 0x6B, 0x03, 0x00, 0x31, 0x45, 0x30] ++
         [0x1D, 0x28, 0x6B, 0x05, 0x00, 0x31, 0x50, 0x30, 72, 73] ++
         [0x1D, 0x28, 0x6B, 0x03, 0x00, 0x31, 0x51, 0x30])
        CodePage.Utf8Lossy =
      some [(PrinterState.default,
        CommandType.Control (Control.Qr 2 4 48 [72, 73]))]) ∧
    (parse_escpos
        ([0x1D, 0x28, 0x6B, 0x04, 0x00, 0x31, 0x41, 0x02, 0x00] ++
         [0x1D, 0x28, 0x6B, 0x03, 0x00, 0x31, 0x43, 0x04] ++
         [0x1D, 0x28, 0x6B, 0x03, 0x00, 0x31, 0x45, 0x30] ++
         [0x1D, 0x28, 0x6B, 0x05, 0x00, 0x31, 0x50, 0x30, 72, 73] ++
         [0x1D, 0x28, 0x6B, 0x03, 0x00, 0x31, 0x51, 0x30] ++
         [0x1D, 0x28, 0x6B, 0x03, 0x00, 0x31, 0x51, 0x30])
        CodePage.Utf8Lossy =
      some [(PrinterState.default,
        CommandType.Control (Control.Qr 2 4 48 [72, 73]))]) ∧
    (∀ m : Nat, m ≠ 0x30 →
      parse_escpos
          ([0x1D, 0x28, 0x6B, 0x05, 0x00, 0x31, 0x50, m, 72, 73] ++
           [0x1D, 0x28, 0x6B, 0x03, 0x00, 0x31, 0x51, 0x30])
          CodePage.Utf8Lossy = some []) ∧
    (∀ (st : PrinterState) (qr : QrState) (e : Nat) (payload : List Nat),
      qr.data = [] →
      qrDispatch st qr e 0x51 payload = some ([], e, st, qr)) ∧
    (∀ (st : PrinterState) (qr : QrState) (e p0 : Nat) (rest : List Nat),
      qrDispatch st qr e 0x50 (p0 :: rest) =
        some ([], e, st,
          if p0 = 0x30 then { qr with data := qr.data ++ rest } else qr)) := by
  refine ⟨by decide, by decide, ?_, ?_, ?_⟩
  · intro m hm
    simp [parse_escpos, parseLoop, parseStep, gsArm, gsParenArm, qrDispatch,
      sliceBytes, hm, QrState.default]
  · intro st qr e payload hqr
    simp [qrDispatch, hqr]
  · intro st qr e p0 rest
    simp [qrDispatch]

/-- Witness for C3: instantiating the store sub-mode byte with `0x31` and
the print-empty / store-dispatch components at concrete states. -/
theorem c3_qr_store_print_witness :
    (parse_escpos
        ([0x1D, 0x28, 0x6B, 0x05, 0x00, 0x31, 0x50, 0x31, 72, 73] ++
         [0x1D, 0x28, 0x6B, 0x03, 0x00, 0x31, 0x51, 0x30])
        CodePage.Utf8Lossy = some []) ∧
    (qrDispatch PrinterState.default QrState.default 8 0x51 [0x30] =
      some ([], 8, PrinterState.default, QrState.default)) ∧
    (qrDispatch PrinterState.default QrState.default 8 0x50 (0x30 :: [72, 73]) =
      some ([], 8, PrinterState.default,
        if (0x30 : Nat) = 0x30
        then { QrState.default with data := QrState.default.data ++ [72, 73] }
        else QrState.default)) :=
  ⟨c3_qr_store_print.2.2.1 0x31 (by decide),
   c3_qr_store_print.2.2.2.1 PrinterState.default QrState.default 8 [0x30]
     (by decide),
   c3_qr_store_print.2.2.2.2 PrinterState.default QrState.default 8 0x30
     [72, 73]⟩

/-! ### Code128 helper lemmas (for C4) -/

theorem utf8DecodeLossy_ascii :
    ∀ {bs : List Nat}, (∀ b ∈ bs, b < 128) → utf8DecodeLossy bs = bs := by
  intro bs
  induction bs with
  | nil => intro _; simp [utf8DecodeLossy]
  | cons b rest ih =>
    intro h
    have hb : b < 128 := h b (by simp)
    rw [utf8DecodeLossy.eq_def]
    simp only [if_pos hb]
    rw [ih fun x hx => h x (by simp [hx])]

theorem utf8Encode_ascii :
    ∀ {s : List Nat}, (∀ c ∈ s, c < 128) → utf8Encode s = s := by
  intro s
  induction s with
  | nil => intro _; simp [utf8Encode]
  | cons c rest ih =>
    intro h
    have hc : c < 128 := h c (by simp)
    have hch : utf8EncodeChar c = [c] := by simp [utf8EncodeChar, hc]
    simp only [utf8Encode, List.flatMap_cons, hch]
    have := ih fun x hx => h x (by simp [hx])
    simp only [utf8Encode] at this
    rw [this]
    rfl

theorem code128ReadSetMarker_no_brace {bs : List Nat}
    (h : ∀ b ∈ bs, b ≠ 123) :
    code128ReadSetMarker bs = (CodeSet.B, bs) := by
  unfold code128ReadSetMarker
  split
  all_goals simp_all

set_option maxHeartbeats 2000000 in
theorem code128Codes_B_ascii :
    ∀ {bs : List Nat}, (∀ b ∈ bs, 32 ≤ b ∧ b ≤ 127 ∧ b ≠ 123) →
      code128Codes CodeSet.B bs = bs.map (fun b => b - 32) := by
  intro bs
  induction bs with
  | nil => intro _; simp [code128Codes]
  | cons b rest ih =>
    intro h
    obtain ⟨hlo, hhi, hne⟩ := h b (by simp)
    have hstep : code128Codes CodeSet.B (b :: rest) =
        (b - 32) :: code128Codes CodeSet.B rest := by
      rw [code128Codes.eq_def]
      split
      all_goals simp_all
    rw [hstep, ih fun x hx => h x (by simp [hx])]
    simp

theorem code128SumFrom_no_wrap :
    ∀ (vs : List Nat) (k sum : Nat),
      sum + code128SpecSum k vs < 2 ^ 32 →
      code128SumFrom k vs sum = sum + code128SpecSum k vs := by
  intro vs
  induction vs with
  | nil => intro k sum _; simp [code128SumFrom, code128SpecSum]
  | cons c rest ih =>
    intro k sum h
    have hspec : code128SpecSum k (c :: rest) =
        c * k + code128SpecSum (k + 1) rest := rfl
    rw [hspec] at h
    have hlt : sum + c * k < 2 ^ 32 := by omega
    simp only [code128SumFrom]
    rw [Nat.mod_eq_of_lt hlt, ih (k + 1) (sum + c * k) (by omega), hspec]
    ring

theorem code128SpecSum_le :
    ∀ (vs : List Nat) (k : Nat),
      (∀ v ∈ vs, v ≤ 95) → k + vs.length ≤ 103 →
      code128SpecSum k vs ≤ 95 * 103 * vs.length := by
  intro vs
  induction vs with
  | nil => intro k _ _; simp [code128SpecSum]
  | cons c rest ih =>
    intro k h hk
    have hc : c ≤ 95 := h c (by simp)
    have hck : c * k ≤ 95 * 103 :=
      Nat.mul_le_mul hc (by simp at hk; omega)
    have hrest := ih (k + 1) (fun v hv => h v (by simp [hv]))
      (by simp at hk ⊢; omega)
    simp only [code128SpecSum, List.length_cons]
    have hmul : 95 * 103 * (rest.length + 1) =
        95 * 103 * rest.length + 95 * 103 := by ring
    omega

theorem code128SpecSum_set :
    ∀ (vs : List Nat) (j k v : Nat), j < vs.length →
      (code128SpecSum k (vs.set j v) : Int) =
        (code128SpecSum k vs : Int) +
          ((v : Int) - (vs.getD j 0 : Int)) * ((k : Int) + (j : Int)) := by
  intro vs
  induction vs with
  | nil => intro j k v hj; simp at hj
  | cons c rest ih =>
    intro j k v hj
    cases j with
    | zero =>
      simp only [List.set_cons_zero, code128SpecSum, List.getD_cons_zero]
      push_cast
      ring
    | succ j' =>
      have hj' : j' < rest.length := by simpa using hj
      simp only [List.set_cons_succ, code128SpecSum, List.getD_cons_succ]
      push_cast
      rw [ih j' (k + 1) v hj']
      push_cast
      ring

theorem getD_map_sub32 :
    ∀ (bs : List Nat) (j : Nat), j < bs.length →
      (bs.map (fun b => b - 32)).getD j 0 = bs.getD j 0 - 32 := by
  intro bs
  induction bs with
  | nil => intro j hj; simp at hj
  | cons b rest ih =>
    intro j hj
    cases j with
    | zero => simp
    | succ j' => simpa using ih j' (by simpa using hj)

theorem getD_mem_of_lt :
    ∀ (bs : List Nat) (j : Nat), j < bs.length → bs.getD j 0 ∈ bs := by
  intro bs
  induction bs with
  | nil => intro j hj; simp at hj
  | cons b rest ih =>
    intro j hj
    cases j with
    | zero => simp
    | succ j' =>
      have hmem := ih j' (by simpa using hj)
      simp only [List.getD_cons_succ]
      exact List.mem_cons_of_mem b hmem

/-- Counterexample for C4: the claim computes the checksum as
`(103 + Σ value_i×(i+1)) mod 103`, but the Start code of code-set B is
104, not 103.  For the one-character payload `"A"` (symbol value 33) the
encoder appends checksum symbol 34 before the Stop code, while the
claim's formula yields 33. -/
theorem c4_code128_counterexample :
    code128AllCodesOf [65] = [104, 33, 34, 106] ∧
    (103 + code128SpecSum 1 [33]) % 103 = 33 ∧ (33 : Nat) ≠ 34 := by
  refine ⟨?_, by decide, by decide⟩
  simp [code128AllCodesOf, utf8Encode, utf8EncodeChar, utf8DecodeLossy,
    code128ReadSetMarker, code128StartCode, code128Codes, code128Checksum,
    code128SumFrom, utf8IsCont]

/-- C4 (amended): for every Code128 payload of printable ASCII without
braces (each byte in `32..=127`, not `{`) of at most 102 characters,
encoded under code-set B, the symbol sequence is the Start code 104, the
payload symbol values `b - 32`, the checksum `(104 + Σ value_i×(i+1)) mod
103` (1-based position weights — `104`, the Start code of set B, not the
claim's 103), and the Stop code 106; and changing any single payload
character (to another in-range, non-brace character) changes the computed
checksum. -/
theorem c4_code128_checksum :
    ∀ (bs : List Nat) (j c : Nat),
      (∀ b ∈ bs, 32 ≤ b ∧ b ≤ 127 ∧ b ≠ 123) →
      bs.length ≤ 102 →
      j < bs.length → 32 ≤ c → c ≤ 127 → c ≠ 123 → c ≠ bs.getD j 0 →
      (code128AllCodesOf bs =
        104 :: bs.map (fun b => b - 32) ++
          [(104 + code128SpecSum 1 (bs.map (fun b => b - 32))) % 103, 106]) ∧
      code128ChecksumOf bs =
        (104 + code128SpecSum 1 (bs.map (fun b => b - 32))) % 103 ∧
      code128ChecksumOf bs ≠ code128ChecksumOf (bs.set j c) := by
  intro bs j c hb hlen hj hc32 hc127 hc123 hcne
  have hascii : ∀ b ∈ bs, b < 128 := fun b hbm => by
    have := hb b hbm; omega
  have hlossy : utf8DecodeLossy bs = bs := utf8DecodeLossy_ascii hascii
  have henc : utf8Encode (utf8DecodeLossy bs) = bs := by
    rw [hlossy]; exact utf8Encode_ascii hascii
  have hmarker : code128ReadSetMarker bs = (CodeSet.B, bs) :=
    code128ReadSetMarker_no_brace fun b hbm => (hb b hbm).2.2
  have hcodes : code128Codes CodeSet.B bs = bs.map (fun b => b - 32) :=
    code128Codes_B_ascii hb
  have hvs95 : ∀ v ∈ bs.map (fun b => b - 32), v ≤ 95 := by
    intro v hv
    simp only [List.mem_map] at hv
    obtain ⟨b, hbm, rfl⟩ := hv
    have := hb b hbm
    omega
  have hvslen : (bs.map (fun b => b - 32)).length = bs.length := by simp
  have hbound := code128SpecSum_le (bs.map (fun b => b - 32)) 1 hvs95
    (by omega)
  have hmul : 95 * 103 * (bs.map (fun b => b - 32)).length ≤ 95 * 103 * 102 :=
    Nat.mul_le_mul_left (95 * 103) (by omega)
  have hsum_lt :
      104 + code128SpecSum 1 (bs.map (fun b => b - 32)) < 2 ^ 32 := by omega
  have hchk : code128ChecksumOf bs =
      (104 + code128SpecSum 1 (bs.map (fun b => b - 32))) % 103 := by
    simp only [code128ChecksumOf, henc, hmarker, code128StartCode,
      code128Checksum, hcodes]
    rw [code128SumFrom_no_wrap _ 1 104 hsum_lt]
  refine ⟨?_, hchk, ?_⟩
  · simp only [code128AllCodesOf, henc, hmarker, code128StartCode,
      code128Checksum, hcodes]
    rw [code128SumFrom_no_wrap _ 1 104 hsum_lt]
  · -- the single-character edit changes the checksum
    set x := bs.getD j 0 with hxdef
    have hxmem : x ∈ bs := getD_mem_of_lt bs j hj
    obtain ⟨hx32, hx127, hx123⟩ := hb x hxmem
    have hb' : ∀ b ∈ bs.set j c, 32 ≤ b ∧ b ≤ 127 ∧ b ≠ 123 := by
      intro b hbm
      rcases List.mem_or_eq_of_mem_set hbm with hbm' | rfl
      · exact hb b hbm'
      · exact ⟨hc32, hc127, hc123⟩
    have hascii' : ∀ b ∈ bs.set j c, b < 128 := fun b hbm => by
      have := hb' b hbm; omega
    have hlossy' : utf8DecodeLossy (bs.set j c) = bs.set j c :=
      utf8DecodeLossy_ascii hascii'
    have henc' : utf8Encode (utf8DecodeLossy (bs.set j c)) = bs.set j c := by
      rw [hlossy']; exact utf8Encode_ascii hascii'
    have hmarker' : code128ReadSetMarker (bs.set j c) = (CodeSet.B, bs.set j c) :=
      code128ReadSetMarker_no_brace fun b hbm => (hb' b hbm).2.2
    have hcodes' : code128Codes CodeSet.B (bs.set j c) =
        (bs.set j c).map (fun b => b - 32) :=
      code128Codes_B_ascii hb'
    have hmapset : (bs.set j c).map (fun b => b - 32) =
        (bs.map (fun b => b - 32)).set j (c - 32) := List.map_set
    have hvs95' : ∀ v ∈ (bs.set j c).map (fun b => b - 32), v ≤ 95 := by
      intro v hv
      simp only [List.mem_map] at hv
      obtain ⟨b, hbm, rfl⟩ := hv
      have := hb' b hbm
      omega
    have hbound' := code128SpecSum_le ((bs.set j c).map (fun b => b - 32)) 1
      hvs95' (by simp; omega)
    have hmul' : 95 * 103 * ((bs.set j c).map (fun b => b - 32)).length ≤
        95 * 103 * 102 :=
      Nat.mul_le_mul_left (95 * 103) (by simp; omega)
    have hsum_lt' :
        104 + code128SpecSum 1 ((bs.set j c).map (fun b => b - 32)) < 2 ^ 32 :=
      by omega
    have hchk' : code128ChecksumOf (bs.set j c) =
        (104 + code128SpecSum 1 ((bs.set j c).map (fun b => b - 32))) % 103 := by
      simp only [code128ChecksumOf, henc', hmarker', code128StartCode,
        code128Checksum, hcodes']
      rw [code128SumFrom_no_wrap _ 1 104 hsum_lt']
    intro heq
    rw [hchk, hchk'] at heq
    have hmod : Nat.ModEq 103
        (104 + code128SpecSum 1 (bs.map (fun b => b - 32)))
        (104 + code128SpecSum 1 ((bs.set j c).map (fun b => b - 32))) := heq
    have hmodS : Nat.ModEq 103
        (code128SpecSum 1 (bs.map (fun b => b - 32)))
        (code128SpecSum 1 ((bs.set j c).map (fun b => b - 32))) :=
      Nat.ModEq.add_left_cancel' 104 hmod
    have hdvd := hmodS.dvd
    have hjlt : j < (bs.map (fun b => b - 32)).length := by omega
    have hset : (code128SpecSum 1 ((bs.map (fun b => b - 32)).set j (c - 32)) : Int) =
        (code128SpecSum 1 (bs.map (fun b => b - 32)) : Int) +
          (((c - 32 : Nat) : Int) - (((bs.map (fun b => b - 32)).getD j 0 : Nat) : Int)) *
            ((1 : Int) + (j : Int)) :=
      code128SpecSum_set (bs.map (fun b => b - 32)) j 1 (c - 32) hjlt
    have hgetd : (bs.map (fun b => b - 32)).getD j 0 = x - 32 := by
      rw [getD_map_sub32 bs j hj]
    rw [hmapset, hset, hgetd] at hdvd
    have hdvd' : (103 : Int) ∣
        ((((c - 32 : Nat) : Int) - ((x - 32 : Nat) : Int)) * ((1 : Int) + (j : Int))) := by
      simpa using hdvd
    have hprime : Prime (103 : Int) := Int.prime_iff_natAbs_prime.mpr (by norm_num)
    rcases hprime.2.2 _ _ hdvd' with hdl | hdr
    · have hne0 : (((c - 32 : Nat) : Int) - ((x - 32 : Nat) : Int)) ≠ 0 := by
        intro h0
        apply hcne
        rw [← hxdef] at *
        omega
      have hge := Int.le_of_dvd (abs_pos.mpr hne0) ((dvd_abs _ _).mpr hdl)
      have habs : |(((c - 32 : Nat) : Int) - ((x - 32 : Nat) : Int))| ≤ 95 := by
        rw [abs_le]
        constructor <;> omega
      omega
    · have hpos : (0 : Int) < 1 + (j : Int) := by omega
      have := Int.le_of_dvd hpos hdr
      omega

/-- Witness for the amended C4: the payload `"AB"` with its first
character changed to `"C"`. -/
theorem c4_code128_checksum_witness :
    (code128AllCodesOf [65, 66] =
      104 :: [65, 66].map (fun b => b - 32) ++
        [(104 + code128SpecSum 1 ([65, 66].map (fun b => b - 32))) % 103, 106]) ∧
    code128ChecksumOf [65, 66] =
      (104 + code128SpecSum 1 ([65, 66].map (fun b => b - 32))) % 103 ∧
    code128ChecksumOf [65, 66] ≠ code128ChecksumOf ([65, 66].set 0 67) :=
  c4_code128_checksum [65, 66] 0 67 (by decide) (by decide) (by decide)
    (by decide) (by decide) (by decide) (by decide)

/-- C8: for every character-size opcode (GS ! n), the argument byte's low
nibble plus 1 becomes the width multiplier and the high nibble plus 1 the
height multiplier, independently of each other (each is a function of its
own nibble only, all other state fields unchanged); in particular raw
value `0x10` yields width multiplier 1 and height multiplier 2. -/
theorem c8_size_nibbles :
    (∀ (cp : CodePage) (data : List Nat) (i : Nat) (st : PrinterState)
      (qr : QrState) (n : Nat),
      data[i]? = some 0x1D → data[i + 1]? = some 0x21 →
      data[i + 2]? = some n →
      parseStep cp data i st qr =
        some ([({ st with
            char_width_mul := n % 16 + 1,
            char_height_mul := n / 16 % 16 + 1,
            font_scale := n / 16 % 16 + 1 },
          CommandType.Control
            (Control.Size n (n &&& 0x0F) ((n >>> 4) &&& 0x0F)))],
          i + 3,
          { st with
            char_width_mul := n % 16 + 1,
            char_height_mul := n / 16 % 16 + 1,
            font_scale := n / 16 % 16 + 1 }, qr)) ∧
    (∀ cp : CodePage,
      (parse_escpos [0x1D, 0x21, 0x10, 0x41] cp).map
          (List.map fun pc => (pc.1.char_width_mul, pc.1.char_height_mul)) =
        some [(1, 2), (1, 2)]) := by
  constructor
  · intro cp data i st qr n h1 h2 h3
    have hlt1 : i + 1 < data.length := (List.getElem?_eq_some_iff.mp h2).1
    have hlt2 : i + 2 < data.length := (List.getElem?_eq_some_iff.mp h3).1
    have hmaskLow : n &&& 15 = n % 16 := by
      have := Nat.and_pow_two_sub_one_eq_mod n 4
      norm_num at this
      exact this
    have hshift : n >>> 4 = n / 16 := by
      have := Nat.shiftRight_eq_div_pow n 4
      norm_num at this
      exact this
    have hmaskHigh : (n >>> 4) &&& 15 = n / 16 % 16 := by
      rw [hshift]
      have := Nat.and_pow_two_sub_one_eq_mod (n / 16) 4
      norm_num at this
      exact this
    have e1 : Nat.min ((n &&& 15) + 1) 255 = n % 16 + 1 := by
      rw [hmaskLow]; exact Nat.min_eq_left (by omega)
    have e2 : Nat.min (((n >>> 4) &&& 15) + 1) 255 = n / 16 % 16 + 1 := by
      rw [hmaskHigh]; exact Nat.min_eq_left (by omega)
    simp [parseStep, h1, gsArm, hlt1, h2, gsSizeArm, hlt2, h3, e1, e2]
  · intro cp
    cases cp <;> decide

/-- Witness for C8: `GS ! 0x10` from the default state. -/
theorem c8_size_nibbles_witness :
    (parseStep CodePage.Utf8Lossy [0x1D, 0x21, 0x10] 0 PrinterState.default
        QrState.default =
      some ([({ PrinterState.default with
          char_width_mul := 0x10 % 16 + 1,
          char_height_mul := 0x10 / 16 % 16 + 1,
          font_scale := 0x10 / 16 % 16 + 1 },
        CommandType.Control
          (Control.Size 0x10 (0x10 &&& 0x0F) ((0x10 >>> 4) &&& 0x0F)))],
        0 + 3,
        { PrinterState.default with
          char_width_mul := 0x10 % 16 + 1,
          char_height_mul := 0x10 / 16 % 16 + 1,
          font_scale := 0x10 / 16 % 16 + 1 }, QrState.default)) ∧
    ((parse_escpos [0x1D, 0x21, 0x10, 0x41] CodePage.Utf8Lossy).map
        (List.map fun pc => (pc.1.char_width_mul, pc.1.char_height_mul)) =
      some [(1, 2), (1, 2)]) :=
  ⟨c8_size_nibbles.1 CodePage.Utf8Lossy [0x1D, 0x21, 0x10] 0
      PrinterState.default QrState.default 0x10
      (by decide) (by decide) (by decide),
    c8_size_nibbles.2 CodePage.Utf8Lossy⟩

/-- Counterexample for C5: the payload `"40123456789"` named by the claim
has 11 digits, not 12, so the EAN encoder rejects it outright (`none`): it
produces no label and no runs at all. -/
theorem c5_ean13_counterexample :
    encode_ean_runs [52, 48, 49, 50, 51, 52, 53, 54, 55, 56, 57] = none ∧
    ([52, 48, 49, 50, 51, 52, 53, 54, 55, 56, 57] : List Nat).length = 11 := by
  constructor
  · decide
  · rfl

set_option maxRecDepth 8192 in
/-- C5 (amended): feeding the 12-digit payload `"401234567890"` produces a
13-digit human-readable label equal to the 12 input digits followed by the
weighted check digit computed from them (here 1, so `"4012345678901"`),
and the produced run-length sequence sums to 95 modules. -/
theorem c5_ean13_roundtrip :
    (encode_ean_runs [52, 48, 49, 50, 51, 52, 53, 54, 55, 56, 57, 48]).map
        (fun p => (p.1.sum, p.2)) =
      some (95, [52, 48, 49, 50, 51, 52, 53, 54, 55, 56, 57, 48] ++
        [48 + eanCheckDigit [52, 48, 49, 50, 51, 52, 53, 54, 55, 56, 57, 48]]) ∧
    eanCheckDigit [52, 48, 49, 50, 51, 52, 53, 54, 55, 56, 57, 48] = 1 ∧
    ([52, 48, 49, 50, 51, 52, 53, 54, 55, 56, 57, 48] ++
      [48 + eanCheckDigit [52, 48, 49, 50, 51, 52, 53, 54, 55, 56, 57, 48]]).length
      = 13 := by
  refine ⟨by decide, by rfl, by rfl⟩

/-- Counterexample for C6: a raster opcode declaring 1 × 2 pixel bytes in
a buffer that ends right after the 8-byte header.  The claim says the
decoder skips the whole header and continues at the byte after it (here:
end of buffer, so no further commands); the code instead advances only 2
bytes, re-decoding the rest of the header as a text run `"0"` and
unrecognized bytes. -/
theorem c6_truncated_raster_counterexample :
    parse_escpos [0x1D, 0x76, 0x30, 0x00, 0x01, 0x00, 0x02, 0x00]
        CodePage.Utf8Lossy =
      some [(PrinterState.default, CommandType.Text [48]),
        (PrinterState.default, CommandType.Unknown 0),
        (PrinterState.default, CommandType.Unknown 1),
        (PrinterState.default, CommandType.Unknown 0),
        (PrinterState.default, CommandType.Unknown 2),
        (PrinterState.default, CommandType.Unknown 0)] ∧
    ([(PrinterState.default, CommandType.Text [48]),
        (PrinterState.default, CommandType.Unknown 0),
        (PrinterState.default, CommandType.Unknown 1),
        (PrinterState.default, CommandType.Unknown 0),
        (PrinterState.default, CommandType.Unknown 2),
        (PrinterState.default, CommandType.Unknown 0)] :
      List ParsedCommand) ≠ [] := by
  constructor
  · rfl
  · decide

/-- C6 (amended): for every raster-image opcode (GS v 0) whose header
declares more pixel bytes than the buffer holds after the header, the
decoder emits no `RasterImage` command, advances only the two-byte
`GS v` opcode introducer, and continues decoding from the third byte of
the opcode (`i + 2`), not from the byte after the 8-byte header. -/
theorem c6_truncated_raster_skips_introducer :
    ∀ (cp : CodePage) (data : List Nat) (i : Nat) (st : PrinterState)
      (qr : QrState) (m xl xh yl yh : Nat),
      data[i]? = some 0x1D → data[i + 1]? = some 0x76 →
      data[i + 2]? = some 0x30 → i + 7 < data.length →
      data[i + 3]? = some m → data[i + 4]? = some xl →
      data[i + 5]? = some xh → data[i + 6]? = some yl →
      data[i + 7]? = some yh →
      data.length < i + 8 + (xl ||| xh <<< 8) * (yl ||| yh <<< 8) →
      parseStep cp data i st qr = some ([], i + 2, st, qr) := by
  intro cp data i st qr m xl xh yl yh h1 h2 h3 h7 h4 h5 h6 h8 h9 htrunc
  have hlt1 : i + 1 < data.length := by omega
  have hcond : ¬ (i + 8 + (xl ||| xh <<< 8) * (yl ||| yh <<< 8) ≤ data.length) := by
    omega
  simp [parseStep, h1, gsArm, hlt1, h2, gsRasterArm, h7, h3, h4, h5, h6, h8,
    h9, hcond]

/-- Witness for the amended C6: the counterexample buffer, stepped from
the start. -/
theorem c6_truncated_raster_skips_introducer_witness :
    parseStep CodePage.Utf8Lossy [0x1D, 0x76, 0x30, 0x00, 0x01, 0x00, 0x02, 0x00]
        0 PrinterState.default QrState.default =
      some ([], 0 + 2, PrinterState.default, QrState.default) :=
  c6_truncated_raster_skips_introducer CodePage.Utf8Lossy
    [0x1D, 0x76, 0x30, 0x00, 0x01, 0x00, 0x02, 0x00] 0
    PrinterState.default QrState.default 0 1 0 2 0
    (by decide) (by decide) (by decide) (by decide) (by decide) (by decide)
    (by decide) (by decide) (by decide) (by decide)

/-- Counterexample for C7: a connection that delivers one byte and then
fails with a non-timeout read error.  The claim says the partial byte is
still flushed as a job; `read_one_job` instead returns `Err` before the
flush, so no job is emitted despite the non-empty buffer. -/
theorem c7_error_drops_partial_counterexample :
    read_one_job [ReadEvent.chunk [1], ReadEvent.fatal] =
      ([], Except.error ()) ∧
    ([1] : List Nat) ≠ [] := by
  constructor
  · rfl
  · decide

/-- C7 (amended): a socket read error other than a timeout aborts that
connection's job and discards the partial bytes (no job is emitted), and
a job with zero accumulated bytes is never emitted, whether the
connection ends by clean EOF, by inactivity timeout, or by read error. -/
theorem c7_read_error_and_empty_jobs :
    (∀ (events : List ReadEvent) (job : List Nat),
      job ∈ (read_one_job events).1 → job ≠ []) ∧
    (∀ events : List ReadEvent,
      (read_one_job events).2 = Except.error () →
      (read_one_job events).1 = []) := by
  constructor
  · intro events job hmem
    unfold read_one_job at hmem
    rcases hloop : readJobLoop events [] with ⟨buf, errored⟩
    rw [hloop] at hmem
    cases errored
    · by_cases hb : buf = []
      · simp [hb] at hmem
      · simp [hb] at hmem
        simpa [hmem] using hb
    · simp at hmem
  · intro events herr
    unfold read_one_job at herr ⊢
    rcases hloop : readJobLoop events [] with ⟨buf, errored⟩
    rw [hloop] at herr
    cases errored
    · by_cases hb : buf = [] <;> simp [hb] at herr
    · simp

/-- Witness for the amended C7: a clean job is non-empty, and the
error-terminated connection emits nothing. -/
theorem c7_read_error_and_empty_jobs_witness :
    (([1, 2] : List Nat) ≠ []) ∧
    (read_one_job [ReadEvent.chunk [1], ReadEvent.fatal]).1 = [] :=
  ⟨c7_read_error_and_empty_jobs.1 [ReadEvent.chunk [1, 2], ReadEvent.timedOut]
      [1, 2] (by decide),
    c7_read_error_and_empty_jobs.2 [ReadEvent.chunk [1], ReadEvent.fatal]
      (by rfl)⟩

/-- Witness for C10: the single `0x09` buffer decodes to one
`Unknown 0x09` command, which is not `Control(Tab)`. -/
theorem c10_tab_never_emitted_witness :
    ((PrinterState.default, CommandType.Unknown 0x09) : ParsedCommand).2 ≠
      CommandType.Control Control.Tab ∧
    parseStep CodePage.Utf8Lossy [0x09] 0 PrinterState.default QrState.default =
      some ([(PrinterState.default, CommandType.Unknown 0x09)], 1,
        PrinterState.default, QrState.default) :=
  ⟨c10_tab_never_emitted.1 [0x09] CodePage.Utf8Lossy
      [(PrinterState.default, CommandType.Unknown 0x09)] (by decide)
      (PrinterState.default, CommandType.Unknown 0x09) (by decide),
    c10_tab_never_emitted.2 CodePage.Utf8Lossy [0x09] 0
      PrinterState.default QrState.default (by decide)⟩

end EscposViewer

